import Mathlib

/-!
Shallow embedding of the analytics aggregation engine of
`src/app/app/analytics/xero-analytics.server.ts` (ShopDelta-Xero).

Conventions of the embedding:
* JS `number` values that carry money/quantities are modelled as `ℚ`
  (exact arithmetic; the spec's reconciliation properties are stated
  "to within floating-point epsilon", which in the exact model is equality).
* Optional / possibly-`undefined` fields are `Option _`; the JS
  `a ?? b` operator is `Option.getD`, and the JS truthiness operator
  `a || b` on strings treats `none` and `""` as falsy.
* A JS `Date` that is valid is modelled by its UTC epoch **day** number
  (`Int`, days since 1970-01-01); an `Invalid Date` is `none` in
  `Option Int`.  All dates in this module are midnight-aligned, so the
  day number determines the time value.
* JS `Map` objects are association lists (`List (String × _)`) with
  `Map.get`/`Map.set` semantics: `set` replaces in place, inserting new
  keys at the end (insertion order preserved).
* The SDK duck-typing fallbacks (`li.quantity ?? li.Quantity`, …) are
  collapsed: the model has one canonical casing per field, exactly the
  `*Lite` shapes the source declares.
-/

namespace ShopDelta

/-! ## JS primitive semantics -/

/-- JS `a || b` for a possibly-absent string `a` (falsy = absent or empty). -/
def jsOrStr (a : Option String) (b : String) : String :=
  match a with
  | some s => if s = "" then b else s
  | none => b

/-- JS `a || b` for two possibly-absent strings (falsy = absent or empty). -/
def jsOrStr2 (a b : Option String) : Option String :=
  match a with
  | some s => if s = "" then b else some s
  | none => b

/-- JS string truthiness for an optional string. -/
def strTruthy (a : Option String) : Bool :=
  match a with
  | some s => s ≠ ""
  | none => false

/-- Rendering of an optional string inside string concatenation:
JS prints `undefined` for an absent value. -/
def jsConcatStr (a : Option String) : String :=
  a.getD "undefined"

/-- `toUpperCase` (ASCII, structurally recursive so the kernel can
evaluate it; the model's strings are ASCII). -/
def strUpper (s : String) : String :=
  String.mk (s.data.map Char.toUpper)

/-- `toLowerCase` (ASCII). -/
def strLower (s : String) : String :=
  String.mk (s.data.map Char.toLower)

/-- Substring test on character lists (JS `String.prototype.includes`). -/
def listContainsSub (needle : List Char) : List Char → Bool
  | [] => needle.isEmpty
  | c :: rest => needle.isPrefixOf (c :: rest) || listContainsSub needle rest

/-- JS `hay.includes(needle)`. -/
def strIncludes (hay needle : String) : Bool :=
  listContainsSub needle.data hay.data

/-! ## UTC calendar arithmetic (civil ↔ epoch-day conversions)

Implements the standard civil-date algorithms; a valid JS `Date` at UTC
midnight is its epoch day number. -/

/-- Epoch day number of a civil date (y, m, d), m ∈ 1..12. -/
def daysFromCivil (y : Int) (m d : Nat) : Int :=
  let y2 : Int := if m ≤ 2 then y - 1 else y
  let era : Int := y2.fdiv 400
  let yoe : Nat := (y2 - era * 400).toNat
  let doy : Nat := (153 * (if 2 < m then m - 3 else m + 9) + 2) / 5 + d - 1
  let doe : Nat := yoe * 365 + yoe / 4 - yoe / 100 + doy
  era * 146097 + (doe : Int) - 719468

/-- Civil date (y, m, d) of an epoch day number. -/
def civilFromDays (z0 : Int) : Int × Nat × Nat :=
  let z : Int := z0 + 719468
  let era : Int := z.fdiv 146097
  let doe : Nat := (z - era * 146097).toNat
  let yoe : Nat := (doe - doe / 1460 + doe / 36524 - doe / 146096) / 365
  let y : Int := (yoe : Int) + era * 400
  let doy : Nat := doe - (365 * yoe + yoe / 4 - yoe / 100)
  let mp : Nat := (5 * doy + 2) / 153
  let d : Nat := doy - (153 * mp + 2) / 5 + 1
  let m : Nat := if mp < 10 then mp + 3 else mp - 9
  (if m ≤ 2 then y + 1 else y, m, d)

/-- Day of week of an epoch day (0 = Sunday, as JS `getUTCDay`). -/
def jsGetUTCDay (z : Int) : Nat :=
  ((z + 4).fmod 7).toNat

/-- Left-pad a natural number with zeros to the given width. -/
def padNat (n : Nat) (width : Nat) : String :=
  let s := toString n
  if s.length < width then String.mk (List.replicate (width - s.length) '0') ++ s else s

/-- Render a (possibly negative) year for ISO output, padded to 4 digits. -/
def padYear (y : Int) : String :=
  if y < 0 then "-" ++ padNat (-y).toNat 6 else padNat y.toNat 4

/-! ## Source helpers (xero-analytics.server.ts lines 80..120) -/

/-- `startOfWeekUTC` (source lines 80-86): the Monday (index 0) of the
week of the given day. -/
def startOfWeekUTC (z : Int) : Int :=
  let dow := jsGetUTCDay z
  let diff := (dow + 6) % 7
  z - diff

/-- `startOfMonthUTC` (source lines 88-90): the first of the month. -/
def startOfMonthUTC (z : Int) : Int :=
  let c := civilFromDays z
  daysFromCivil c.1 c.2.1 1

/-- `fmtYMD` (source lines 92-94): `d.toISOString().slice(0, 10)`. -/
def fmtYMD (z : Int) : String :=
  let c := civilFromDays z
  padYear c.1 ++ "-" ++ padNat c.2.1 2 ++ "-" ++ padNat c.2.2 2

/-- `fmtYMD` on a JS `Date` that may be Invalid: `toISOString` throws a
`RangeError` on an Invalid Date, modelled as `Except.error`. -/
def fmtYMDE (z : Option Int) : Except String String :=
  match z with
  | some v => Except.ok (fmtYMD v)
  | none => Except.error "RangeError: Invalid time value"

/-- Number of days in a civil month. -/
def daysInMonth (y : Int) (m : Nat) : Nat :=
  if m = 2 then (if (y.emod 4 = 0 ∧ y.emod 100 ≠ 0) ∨ y.emod 400 = 0 then 29 else 28)
  else if m = 4 ∨ m = 6 ∨ m = 9 ∨ m = 11 then 30
  else 31

/-- Split a character list on a separator character. -/
def splitOnCharList (sep : Char) : List Char → List (List Char)
  | [] => [[]]
  | x :: xs =>
    match splitOnCharList sep xs with
    | [] => [[]]
    | g :: gs => if x = sep then [] :: g :: gs else (x :: g) :: gs

/-- Parse a nonempty all-digit character list as a natural number. -/
def digitsToNat? (l : List Char) : Option Nat :=
  if l.isEmpty then none
  else l.foldl (fun acc c =>
    match acc with
    | none => none
    | some n => if '0' ≤ c ∧ c ≤ '9' then some (n * 10 + (c.toNat - '0'.toNat)) else none)
    (some 0)

/-- `new Date(s + "T00:00:00Z")`: ISO `YYYY-MM-DD` parses to a valid UTC
midnight date; anything else yields an Invalid Date (`none`). -/
def parseYMD (s : String) : Option Int :=
  match splitOnCharList '-' s.data with
  | [ys, ms, ds] =>
    if ys.length = 4 ∧ ms.length = 2 ∧ ds.length = 2 then
      match digitsToNat? ys, digitsToNat? ms, digitsToNat? ds with
      | some y, some m, some d =>
        if 1 ≤ m ∧ m ≤ 12 ∧ 1 ≤ d ∧ d ≤ daysInMonth y m then
          some (daysFromCivil y m d)
        else none
      | _, _, _ => none
    else none
  | _ => none

/-! ## Data model (source lines 4..41) -/

/-- `Granularity` (source line 4). -/
inductive Granularity where
  | day
  | week
  | month
deriving DecidableEq

/-- `Preset` (source line 6). -/
inductive Preset where
  | last30
  | thisMonth
  | ytd
  | custom
deriving DecidableEq

/-- `XeroAnalyticsFilters` (source lines 7-15), restricted to the fields
`normalizeRange` reads. -/
structure XeroAnalyticsFilters where
  preset : Option Preset := none
  start : Option String := none
  «end» : Option String := none
  granularity : Option Granularity := none
deriving DecidableEq

/-- `LineItemLite` (source lines 18-25). -/
structure LineItemLite where
  itemCode : Option String := none
  description : Option String := none
  quantity : Option ℚ := none
  lineAmount : Option ℚ := none
  unitAmount : Option ℚ := none
  taxAmount : Option ℚ := none
deriving DecidableEq

/-- `InvoiceLite` (source lines 26-36), plus the dynamically-accessed
fields `reference` and `totalTax` that the product fold reads. -/
structure InvoiceLite where
  date : Option String := none
  lineItems : Option (List LineItemLite) := none
  total : Option ℚ := none
  totalTax : Option ℚ := none
  currencyCode : Option String := none
  invoiceID : Option String := none
  invoiceNumber : Option String := none
  status : Option String := none
  type : Option String := none
  lineAmountTypes : Option String := none
  reference : Option String := none
deriving DecidableEq

/-- `ItemLite` (source lines 37-41). -/
structure ItemLite where
  code : Option String := none
  name : Option String := none
  isTrackedAsInventory : Option Bool := none
deriving DecidableEq

/-! ## Range normalizer (source lines 96-114) -/

/-- Result of `normalizeRange`: `start` and `end` are JS `Date`s that may
be Invalid (`none`). -/
structure NormalizedRange where
  start : Option Int
  «end» : Option Int
  granularity : Granularity
  preset : Preset
deriving DecidableEq

/-- `normalizeRange` (source lines 96-114).  `utcNow` is the current UTC
day (the source truncates `new Date()` to UTC midnight).  The
`filters.end ? ... : utcNow` and `filters.start ? ... : (utcNow - 29)`
conditionals are JS truthiness checks: a missing or empty string falls
back to the default, while a nonempty string is parsed (and may yield an
Invalid Date). -/
def normalizeRange (filters : XeroAnalyticsFilters) (utcNow : Int) : NormalizedRange :=
  let preset := filters.preset.getD Preset.last30
  let e : Option Int :=
    if strTruthy filters.«end» then parseYMD (filters.«end».getD "") else some utcNow
  let s : Option Int :=
    match preset with
    | Preset.thisMonth => some (startOfMonthUTC utcNow)
    | Preset.ytd => some (daysFromCivil (civilFromDays utcNow).1 1 1)
    | _ =>
      if strTruthy filters.start then parseYMD (filters.start.getD "")
      else some (utcNow - 29)
  { start := s, «end» := e, granularity := filters.granularity.getD Granularity.day,
    preset := preset }

/-- `bucketKey` (source lines 116-120). -/
def bucketKey (z : Int) (g : Granularity) : String :=
  match g with
  | Granularity.day => fmtYMD z
  | Granularity.week => fmtYMD (startOfWeekUTC z)
  | Granularity.month => fmtYMD (startOfMonthUTC z)

/-- `monthKey` (source line 665): `` `${y}-${pad2 (m+1)}` `` (year unpadded). -/
def monthKeyStr (z : Int) : String :=
  let c := civilFromDays z
  toString c.1 ++ "-" ++ padNat c.2.1 2

/-! ## JS `Map` objects as association lists

`Map.get` / `Map.set` semantics: `set` of an existing key replaces its
value in place; a new key is appended (insertion order preserved). -/

/-- `Map.get` (returns `undefined` as `none`). -/
def alGet {V : Type} : List (String × V) → String → Option V
  | [], _ => none
  | (k, v) :: rest, key => if k = key then some v else alGet rest key

/-- `Map.set`. -/
def alSet {V : Type} : List (String × V) → String → V → List (String × V)
  | [], key, v => [(key, v)]
  | (k, w) :: rest, key, v =>
    if k = key then (k, v) :: rest else (k, w) :: alSet rest key v

/-- The key list of a map (`Array.from(m.keys())`). -/
def alKeys {V : Type} (m : List (String × V)) : List String :=
  m.map (fun e => e.1)

theorem alGet_alSet {V : Type} (m : List (String × V)) (k : String) (v : V) (k' : String) :
    alGet (alSet m k v) k' = if k = k' then some v else alGet m k' := by
  induction m with
  | nil =>
    by_cases h : k = k' <;> simp [alSet, alGet, h]
  | cons e rest ih =>
    obtain ⟨ek, ev⟩ := e
    by_cases h1 : ek = k
    · subst h1
      by_cases h2 : ek = k' <;> simp [alSet, alGet, h2]
    · by_cases h2 : ek = k'
      · subst h2
        have hk : ¬ k = ek := fun h => h1 h.symm
        simp [alSet, alGet, h1, hk]
      · simp [alSet, alGet, h1, h2, ih]

theorem alSet_of_get_none {V : Type} (m : List (String × V)) (k : String) (v : V)
    (h : alGet m k = none) : alSet m k v = m ++ [(k, v)] := by
  induction m with
  | nil => simp [alSet]
  | cons e rest ih =>
    obtain ⟨ek, ev⟩ := e
    by_cases h1 : ek = k
    · subst h1; simp [alGet] at h
    · simp [alGet, h1] at h
      simp [alSet, h1, ih h]

theorem alKeys_alSet_of_get_some {V : Type} (m : List (String × V)) (k : String) (v w : V)
    (h : alGet m k = some w) : alKeys (alSet m k v) = alKeys m := by
  induction m with
  | nil => simp [alGet] at h
  | cons e rest ih =>
    obtain ⟨ek, ev⟩ := e
    by_cases h1 : ek = k
    · subst h1; simp [alSet, alKeys]
    · simp [alGet, h1] at h
      simp [alSet, alKeys, h1] at ih ⊢
      exact ih h

theorem alGet_eq_none_iff {V : Type} (m : List (String × V)) (k : String) :
    alGet m k = none ↔ k ∉ alKeys m := by
  induction m with
  | nil => simp [alGet, alKeys]
  | cons e rest ih =>
    obtain ⟨ek, ev⟩ := e
    by_cases h1 : ek = k
    · subst h1; simp [alGet, alKeys]
    · have h2 : ¬ k = ek := fun h => h1 h.symm
      simp [alGet, alKeys, h1, h2, ih]

theorem alKeys_nodup_alSet {V : Type} (m : List (String × V)) (k : String) (v : V)
    (h : (alKeys m).Nodup) : (alKeys (alSet m k v)).Nodup := by
  cases hg : alGet m k with
  | none =>
    rw [alSet_of_get_none m k v hg]
    have hk : k ∉ alKeys m := (alGet_eq_none_iff m k).1 hg
    have hrw : alKeys (m ++ [(k, v)]) = alKeys m ++ [k] := by
      simp [alKeys]
    rw [hrw]
    refine List.Nodup.append h (List.nodup_singleton k) ?_
    intro a ha hb
    have : a = k := by simpa using hb
    subst this
    exact hk ha
  | some w =>
    rw [alKeys_alSet_of_get_some m k v w hg]
    exact h

theorem alGet_isSome_of_mem_keys {V : Type} (m : List (String × V)) (k : String)
    (h : k ∈ alKeys m) : (alGet m k).isSome := by
  induction m with
  | nil => simp [alKeys] at h
  | cons e rest ih =>
    obtain ⟨ek, ev⟩ := e
    by_cases h1 : ek = k
    · simp [alGet, h1]
    · have hrw : alKeys ((ek, ev) :: rest) = ek :: alKeys rest := rfl
      rw [hrw] at h
      rcases List.mem_cons.1 h with h | h
      · exact absurd h.symm h1
      · simpa [alGet, h1] using ih h

/-! ### Accumulator maps with `{qty, sales}` values

The bucket map and the monthly map hold `ℚ × ℚ` values (quantity, sales);
the source pattern `const cur = m.get(k) || {0,0}; cur.x += dx; m.set(k, cur)`
is `bump`. -/

/-- The running sum at a key (`m.get(k)` with the zero default the source
uses before mutating). -/
def valueAt (m : List (String × (ℚ × ℚ))) (k : String) : ℚ × ℚ :=
  (alGet m k).getD (0, 0)

/-- Get-or-zero, add, set — the accumulation step of the source folds. -/
def bump (m : List (String × (ℚ × ℚ))) (k : String) (v : ℚ × ℚ) :
    List (String × (ℚ × ℚ)) :=
  alSet m k (valueAt m k + v)

theorem valueAt_bump (m : List (String × (ℚ × ℚ))) (k : String) (v : ℚ × ℚ) (k' : String) :
    valueAt (bump m k v) k' = valueAt m k' + (if k = k' then v else 0) := by
  by_cases h : k = k'
  · subst h
    simp [valueAt, bump, alGet_alSet]
  · simp [valueAt, bump, alGet_alSet, h]

/-- Sum of all stored values of a `{qty, sales}` map. -/
def svals (m : List (String × (ℚ × ℚ))) : ℚ × ℚ :=
  (m.map (fun e => e.2)).sum

theorem svals_alSet_of_get_some (m : List (String × (ℚ × ℚ))) (k : String) (v w : ℚ × ℚ)
    (h : alGet m k = some w) : svals (alSet m k v) + w = svals m + v := by
  induction m with
  | nil => simp [alGet] at h
  | cons e rest ih =>
    obtain ⟨ek, ev⟩ := e
    by_cases h1 : ek = k
    · subst h1
      simp [alGet] at h
      subst h
      simp [alSet, svals]
      abel
    · simp [alGet, h1] at h
      simp only [alSet, h1, if_neg h1, svals, List.map_cons, List.sum_cons]
      have := ih h
      simp only [svals] at this
      calc ev + ((alSet rest k v).map (fun e => e.2)).sum + w
          = ev + (((alSet rest k v).map (fun e => e.2)).sum + w) := by abel
        _ = ev + ((rest.map (fun e => e.2)).sum + v) := by rw [this]
        _ = ev + (rest.map (fun e => e.2)).sum + v := by abel

theorem svals_bump (m : List (String × (ℚ × ℚ))) (k : String) (v : ℚ × ℚ) :
    svals (bump m k v) = svals m + v := by
  unfold bump valueAt
  cases hg : alGet m k with
  | none =>
    rw [alSet_of_get_none m k _ hg]
    simp [svals]
  | some w =>
    have := svals_alSet_of_get_some m k (w + v) w hg
    simp at this
    calc svals (alSet m k ((some w).getD (0, 0) + v))
        = svals (alSet m k (w + v)) := by norm_num
      _ = svals m + v := by
          have h2 := svals_alSet_of_get_some m k (w + v) w hg
          have : svals (alSet m k (w + v)) = svals m + (w + v) - w := by
            rw [← h2]; abel
          rw [this]; abel

/-! ### The product map: values `(title, qty, sales)`

`productMap.get(pid) || { title, qty: 0, sales: 0 }` keeps the first-seen
title; only qty/sales are accumulated. -/

/-- Numeric content (qty, sales) at a product id. -/
def pvalueAt (m : List (String × (String × ℚ × ℚ))) (k : String) : ℚ × ℚ :=
  match alGet m k with
  | some v => (v.2.1, v.2.2)
  | none => (0, 0)

/-- The accumulation step of the product folds: get-or-fresh (with the
given title), add to qty/sales, set. -/
def bumpProd (m : List (String × (String × ℚ × ℚ))) (k : String) (title : String)
    (v : ℚ × ℚ) : List (String × (String × ℚ × ℚ)) :=
  match alGet m k with
  | some w => alSet m k (w.1, w.2.1 + v.1, w.2.2 + v.2)
  | none => alSet m k (title, v.1, v.2)

theorem pvalueAt_bumpProd (m : List (String × (String × ℚ × ℚ))) (k : String)
    (title : String) (v : ℚ × ℚ) (k' : String) :
    pvalueAt (bumpProd m k title v) k' = pvalueAt m k' + (if k = k' then v else 0) := by
  unfold bumpProd
  cases hg : alGet m k with
  | none =>
    by_cases h : k = k'
    · subst h
      simp [pvalueAt, alGet_alSet, hg]
    · simp [pvalueAt, alGet_alSet, h]
  | some w =>
    by_cases h : k = k'
    · subst h
      simp [pvalueAt, alGet_alSet, hg, Prod.ext_iff, Prod.fst_add, Prod.snd_add]
    · simp [pvalueAt, alGet_alSet, h]

/-- Sum of the stored sales values of the product map. -/
def psales (m : List (String × (String × ℚ × ℚ))) : ℚ :=
  (m.map (fun e => e.2.2.2)).sum

theorem psales_alSet_of_get_some (m : List (String × (String × ℚ × ℚ))) (k : String)
    (v w : String × ℚ × ℚ) (h : alGet m k = some w) :
    psales (alSet m k v) + w.2.2 = psales m + v.2.2 := by
  induction m with
  | nil => simp [alGet] at h
  | cons e rest ih =>
    obtain ⟨ek, ev⟩ := e
    by_cases h1 : ek = k
    · subst h1
      simp [alGet] at h
      subst h
      simp [alSet, psales]
      ring
    · simp [alGet, h1] at h
      have hset : alSet ((ek, ev) :: rest) k v = (ek, ev) :: alSet rest k v := by
        simp [alSet, h1]
      rw [hset]
      have h2 := ih h
      simp only [psales, List.map_cons, List.sum_cons] at h2 ⊢
      linarith

theorem psales_bumpProd (m : List (String × (String × ℚ × ℚ))) (k : String)
    (title : String) (v : ℚ × ℚ) :
    psales (bumpProd m k title v) = psales m + v.2 := by
  unfold bumpProd
  cases hg : alGet m k with
  | none =>
    rw [alSet_of_get_none m k _ hg]
    simp [psales]
  | some w =>
    have h2 := psales_alSet_of_get_some m k (w.1, w.2.1 + v.1, w.2.2 + v.2) w hg
    simp at h2
    linarith

/-! ### Generic fold helpers -/

theorem foldl_add_map {α : Type} (f : α → ℚ) :
    ∀ (l : List α) (a : ℚ), l.foldl (fun s x => s + f x) a = a + (l.map f).sum := by
  intro l
  induction l with
  | nil => intro a; simp
  | cons x xs ih =>
    intro a
    simp only [List.foldl_cons, List.map_cons, List.sum_cons, ih]
    ring

theorem foldl_add_pair {α : Type} (f : α → ℚ × ℚ) :
    ∀ (l : List α) (a : ℚ × ℚ), l.foldl (fun s x => s + f x) a = a + (l.map f).sum := by
  intro l
  induction l with
  | nil => intro a; simp
  | cons x xs ih =>
    intro a
    simp only [List.foldl_cons, List.map_cons, List.sum_cons, ih]
    abel

theorem sum_map_neg {α : Type} (f : α → ℚ) (l : List α) :
    (l.map (fun x => -f x)).sum = -(l.map f).sum := by
  induction l with
  | nil => simp
  | cons x xs ih => simp [ih]; ring

/-! ## Document filter & classifier (source lines 281-311)

`fetchedAll.filter(...)` with the two exclusion counters mutated from
inside the predicate; modelled as a fold carrying the retained list and
the counters. -/

/-- JS truthiness of the raw `date` field (`const dt = d ? new Date(d) : null`;
`if (!dt) return false;` — a `Date` object is always truthy, so only a
missing/empty string short-circuits here). -/
def dateTruthy (inv : InvoiceLite) : Bool :=
  strTruthy inv.date

/-- `String(inv.type ?? '').toUpperCase()`. -/
def typeUpper (inv : InvoiceLite) : String :=
  strUpper (inv.type.getD "")

/-- `isSales` (source line 303): ACCREC, ACCRECCREDIT, or a falsy `type`. -/
def isSalesType (inv : InvoiceLite) : Bool :=
  typeUpper inv = "ACCREC" || typeUpper inv = "ACCRECCREDIT" || !(strTruthy inv.type)

/-- `isPurchase` (source line 304). -/
def isPurchaseType (inv : InvoiceLite) : Bool :=
  typeUpper inv = "ACCPAY"

/-- `typeOk` (source line 305). -/
def typeOk (includePurchases : Bool) (inv : InvoiceLite) : Bool :=
  isSalesType inv || (includePurchases && isPurchaseType inv)

/-- `isGoodStatus` (source lines 307-308). -/
def statusOk (inv : InvoiceLite) : Bool :=
  let s := strUpper (inv.status.getD "")
  s = "AUTHORISED" || s = "PAID" || s = ""

/-- `dt >= start` on JS dates: any comparison with an Invalid Date (NaN)
is false. -/
def jsDateGE (a b : Option Int) : Bool :=
  match a, b with
  | some x, some y => decide (y ≤ x)
  | _, _ => false

/-- `dt <= end` on JS dates. -/
def jsDateLE (a b : Option Int) : Bool :=
  match a, b with
  | some x, some y => decide (x ≤ y)
  | _, _ => false

/-- State of the filter pass: retained documents in input order plus the
two diagnostic counters. -/
structure FilterAcc where
  invoices : List InvoiceLite
  excludedNonSales : Nat
  excludedStatus : Nat
deriving DecidableEq

/-- One document through the filter predicate (source lines 297-311):
falsy date → silently dropped; bad type → `excludedNonSales++`, dropped;
bad status → `excludedStatus++`, dropped; out of range (or unparseable
date) → silently dropped; else retained. -/
def filterStep (includePurchases : Bool) (startD endD : Option Int)
    (st : FilterAcc) (inv : InvoiceLite) : FilterAcc :=
  if !(dateTruthy inv) then st
  else
    let dt := parseYMD (inv.date.getD "")
    if !(typeOk includePurchases inv) then
      { st with excludedNonSales := st.excludedNonSales + 1 }
    else if !(statusOk inv) then
      { st with excludedStatus := st.excludedStatus + 1 }
    else if jsDateGE dt startD && jsDateLE dt endD then
      { st with invoices := st.invoices ++ [inv] }
    else st

/-- The whole filter pass over the fetched documents. -/
def filterDocs (includePurchases : Bool) (startD endD : Option Int)
    (docs : List InvoiceLite) : FilterAcc :=
  docs.foldl (filterStep includePurchases startD endD) ⟨[], 0, 0⟩

/-- Combined count of retained and counted-excluded documents. -/
def filterMeasure (st : FilterAcc) : Nat :=
  st.invoices.length + st.excludedNonSales + st.excludedStatus

theorem filterMeasure_step_le (includePurchases : Bool) (startD endD : Option Int)
    (st : FilterAcc) (inv : InvoiceLite) :
    filterMeasure (filterStep includePurchases startD endD st inv) ≤ filterMeasure st + 1 := by
  unfold filterStep filterMeasure
  by_cases h1 : dateTruthy inv
  · by_cases h2 : typeOk includePurchases inv
    · by_cases h3 : statusOk inv
      · by_cases h4 : jsDateGE (parseYMD (inv.date.getD "")) startD
          && jsDateLE (parseYMD (inv.date.getD "")) endD
        · simp [h1, h2, h3, h4]
          omega
        · simp [h1, h2, h3, h4]
      · simp [h1, h2, h3]
        omega
    · simp [h1, h2]
      omega
  · simp [h1]

theorem filterMeasure_fold_le (includePurchases : Bool) (startD endD : Option Int) :
    ∀ (docs : List InvoiceLite) (st : FilterAcc),
      filterMeasure (docs.foldl (filterStep includePurchases startD endD) st)
        ≤ filterMeasure st + docs.length := by
  intro docs
  induction docs with
  | nil => intro st; simp
  | cons d rest ih =>
    intro st
    calc filterMeasure ((rest).foldl (filterStep includePurchases startD endD)
            (filterStep includePurchases startD endD st d))
        ≤ filterMeasure (filterStep includePurchases startD endD st d) + rest.length :=
          ih _
      _ ≤ (filterMeasure st + 1) + rest.length := by
          have := filterMeasure_step_le includePurchases startD endD st d
          omega
      _ = filterMeasure st + (d :: rest).length := by simp; omega

/-! ## Shared per-document / per-line helpers of the aggregation folds -/

/-- `sign` (source lines 333, 439, 595, 668):
`(inv.type || '').toUpperCase() === 'ACCRECCREDIT' ? -1 : 1`. -/
def isCreditDoc (inv : InvoiceLite) : Bool :=
  strUpper (inv.type.getD "") = "ACCRECCREDIT"

/-- The credit/debit sign applied in every fold. -/
def signOf (inv : InvoiceLite) : ℚ :=
  if isCreditDoc inv then -1 else 1

/-- `new Date(inv.date ?? Date.now())` as an epoch day; a present but
unparseable date string gives an Invalid Date (`none`). -/
def invDate (now : Int) (inv : InvoiceLite) : Option Int :=
  match inv.date with
  | none => some now
  | some s => parseYMD s

/-- `(inv.lineItems || [])` (arrays are always truthy, absent → `[]`). -/
def itemsOf (inv : InvoiceLite) : List LineItemLite :=
  inv.lineItems.getD []

/-- The bucket key of a document.  On an Invalid Date the source would
throw inside `fmtYMD`; the sentinel key keeps the model total, and the
theorems that need real dates hypothesize parseable ones. -/
def bucketKeyOf (now : Int) (g : Granularity) (inv : InvoiceLite) : String :=
  match invDate now inv with
  | some z => bucketKey z g
  | none => "!InvalidDate"

/-- The month key of a document (`monthKey(new Date(inv.date ?? Date.now()))`);
on an Invalid Date `getUTCFullYear()` is NaN and the key is `"NaN-NaN"`. -/
def monthKeyOf (now : Int) (inv : InvoiceLite) : String :=
  match invDate now inv with
  | some z => monthKeyStr z
  | none => "NaN-NaN"

/-- `hasAmount` (source lines 342, 496, 610, 676):
`typeof lineAmount === 'number' || typeof unitAmount === 'number'`. -/
def lineHasAmount (li : LineItemLite) : Bool :=
  li.lineAmount.isSome || li.unitAmount.isSome

/-- The quantity-inference guard (source lines 344, 498, 611, 678):
`(q == null || q === 0) && hasAmount`. -/
def lineQtyInferred (li : LineItemLite) : Bool :=
  (li.quantity.isNone || li.quantity = some 0) && lineHasAmount li

/-- Effective line quantity after inference: `1` when inferred, else
`Number(q ?? 0)` (same rule at the bucket, product and monthly sites). -/
def lineEffQty (li : LineItemLite) : ℚ :=
  if lineQtyInferred li then 1 else li.quantity.getD 0

/-- Bucket-fold line pre-tax amount (source lines 356-357):
`(lineAmount ?? (unitAmount ?? 0) * (quantity ?? 0)) - (taxAmount ?? 0)`. -/
def bucketLinePretax (li : LineItemLite) : ℚ :=
  (li.lineAmount.getD ((li.unitAmount.getD 0) * (li.quantity.getD 0))) - li.taxAmount.getD 0

/-- Product-fold line sales (source lines 514-516): `sign * ((lineAmount ??
(unitAmount ?? 0) * (quantity ?? 0)) - (taxAmount ?? 0))`; the JS
`chosenAmt || 0` is the identity on an exact rational. -/
def prodLineSales (sign : ℚ) (li : LineItemLite) : ℚ :=
  sign * ((li.lineAmount.getD ((li.unitAmount.getD 0) * (li.quantity.getD 0))) - li.taxAmount.getD 0)

/-- Product-fold line quantity (source lines 496-499). -/
def prodLineQty (sign : ℚ) (li : LineItemLite) : ℚ :=
  sign * lineEffQty li

/-- Monthly-fold line sales before sign (source lines 693-695). -/
def monthLineSales (li : LineItemLite) : ℚ :=
  (li.lineAmount.getD ((li.unitAmount.getD 0) * (li.quantity.getD 0))) - li.taxAmount.getD 0

/-- `items.reduce((s, li) => s + Number(li.taxAmount ?? 0), 0)`
(source lines 365, 701). -/
def taxSum (items : List LineItemLite) : ℚ :=
  items.foldl (fun s li => s + li.taxAmount.getD 0) 0

/-- `inv.lineAmountTypes && inv.lineAmountTypes.toLowerCase() === 'inclusive'`
(source lines 364, 700). -/
def latInclusive (inv : InvoiceLite) : Bool :=
  strTruthy inv.lineAmountTypes && strLower (inv.lineAmountTypes.getD "") = "inclusive"

/-! ## Bucket fold (source lines 330-379) -/

/-- Signed document quantity contributed to its bucket (source lines
340-352): the line reduce plus the empty-lines inference. -/
def docBucketQty (inv : InvoiceLite) : ℚ :=
  let sign := signOf inv
  let items := itemsOf inv
  let qty := items.foldl (fun s li => s + sign * lineEffQty li) 0
  if items.isEmpty && inv.total.isSome then qty + sign * 1 else qty

/-- Signed document sales contributed to its bucket (source lines
353-371): prefer the document total (tax-adjusted when Inclusive), else
the summed line pre-tax amounts. -/
def docBucketSales (inv : InvoiceLite) : ℚ :=
  let sign := signOf inv
  let items := itemsOf inv
  let totalLinesPretax := items.foldl (fun s li => s + sign * bucketLinePretax li) 0
  match inv.total with
  | some t => if latInclusive inv then sign * (t - taxSum items) else sign * t
  | none => totalLinesPretax

/-- `inferredQtyLines` increments performed by the bucket fold for one
document (source lines 344, 350). -/
def docBucketInferred (inv : InvoiceLite) : Nat :=
  ((itemsOf inv).filter lineQtyInferred).length
    + (if (itemsOf inv).isEmpty && inv.total.isSome then 1 else 0)

/-- State of the bucket fold: the bucket map plus the mutable counters
the loop updates (source lines 325-331). -/
structure BucketAcc where
  map : List (String × (ℚ × ℚ))
  inferred : Nat
  creditCount : Nat
  creditQty : ℚ
  creditSales : ℚ
deriving DecidableEq

/-- One document through the bucket fold (source lines 332-379). -/
def bucketStep (now : Int) (g : Granularity) (st : BucketAcc) (inv : InvoiceLite) :
    BucketAcc :=
  let key := bucketKeyOf now g inv
  let qty := docBucketQty inv
  let total := docBucketSales inv
  { map := bump st.map key (qty, total),
    inferred := st.inferred + docBucketInferred inv,
    creditCount := st.creditCount + (if isCreditDoc inv then 1 else 0),
    creditQty := st.creditQty + (if isCreditDoc inv then qty else 0),
    creditSales := st.creditSales + (if isCreditDoc inv then total else 0) }

/-- The full bucket fold. -/
def bucketFold (now : Int) (g : Granularity) (invs : List InvoiceLite) : BucketAcc :=
  invs.foldl (bucketStep now g) ⟨[], 0, 0, 0, 0⟩

/-- Per-document contribution to the bucket map at a given key. -/
def bucketDeltaAt (now : Int) (g : Granularity) (inv : InvoiceLite) (k : String) : ℚ × ℚ :=
  if bucketKeyOf now g inv = k then (docBucketQty inv, docBucketSales inv) else 0

/-! ## Monthly fold (source lines 664-709) -/

/-- Signed document quantity in the monthly fold (source lines 673-689;
the non-array `else if` branch is unreachable because `lineItems || []`
is always an array). -/
def docMonthQty (inv : InvoiceLite) : ℚ :=
  let sign := signOf inv
  let itemsM := itemsOf inv
  let q := itemsM.foldl (fun s li => s + sign * lineEffQty li) 0
  if itemsM.isEmpty && inv.total.isSome then q + sign * 1 else q

/-- Signed document sales in the monthly fold (source lines 691-707). -/
def docMonthSales (inv : InvoiceLite) : ℚ :=
  let sign := signOf inv
  let itemsM := itemsOf inv
  let sumLines := itemsM.foldl (fun s li => s + sign * monthLineSales li) 0
  match inv.total with
  | some t => if latInclusive inv then sign * (t - taxSum itemsM) else sign * t
  | none => sumLines

/-- `inferredQtyLines` increments performed by the monthly fold for one
document (source lines 678, 683, 687). -/
def docMonthInferred (inv : InvoiceLite) : Nat :=
  ((itemsOf inv).filter lineQtyInferred).length
    + (if (itemsOf inv).isEmpty && inv.total.isSome then 1 else 0)

/-- State of the monthly fold. -/
structure MonthAcc where
  map : List (String × (ℚ × ℚ))
  inferred : Nat
deriving DecidableEq

/-- One document through the monthly fold (source lines 667-709). -/
def monthStep (now : Int) (st : MonthAcc) (inv : InvoiceLite) : MonthAcc :=
  { map := bump st.map (monthKeyOf now inv) (docMonthQty inv, docMonthSales inv),
    inferred := st.inferred + docMonthInferred inv }

/-- The full monthly fold. -/
def monthFold (now : Int) (invs : List InvoiceLite) : MonthAcc :=
  invs.foldl (monthStep now) ⟨[], 0⟩

/-- Per-document contribution to the monthly map at a given key. -/
def monthDeltaAt (now : Int) (inv : InvoiceLite) (k : String) : ℚ × ℚ :=
  if monthKeyOf now inv = k then (docMonthQty inv, docMonthSales inv) else 0

/-! ## Product fold (source lines 400-582) -/

/-- One character of `normalizeText`: keep `[a-z0-9]`, everything else
(including whitespace) collapses to a space. -/
def sanitizeChar (c : Char) : Char :=
  if ('a' ≤ c ∧ c ≤ 'z') ∨ ('0' ≤ c ∧ c ≤ '9') then c else ' '

/-- `normalizeText` (source lines 425-431): lowercase, strip
non-alphanumerics to spaces, collapse runs of whitespace, trim. -/
def normalizeText (s : Option String) : String :=
  let lowered := (strLower (s.getD "")).data.map sanitizeChar
  let parts := (splitOnCharList ' ' lowered).map String.mk
  String.intercalate " " (parts.filter (fun w => w ≠ ""))

/-- `itemsIndex` (source lines 402-415): items keyed by uppercased code;
falsy codes skipped. -/
def buildItemsIndex (allItems : List ItemLite) : List (String × ItemLite) :=
  allItems.foldl
    (fun m it => if strTruthy it.code then alSet m (strUpper (it.code.getD "")) it else m)
    []

/-- `itemsNameIndex` (source lines 434-437): items keyed by normalized
name; items without a truthy name skipped. -/
def buildItemsNameIndex (iIdx : List (String × ItemLite)) : List (String × ItemLite) :=
  iIdx.foldl
    (fun m e => if strTruthy e.2.name then alSet m (normalizeText e.2.name) e.2 else m)
    []

/-- Line-level product identity resolution (source lines 466-489):
returns `(pid, title, codeMatch, heuristicMatch)`. -/
def resolveLineIdent (iIdx nIdx : List (String × ItemLite)) (li : LineItemLite) :
    String × String × Bool × Bool :=
  let rawCode := strUpper (li.itemCode.getD "")
  let pid0 := if rawCode ≠ "" then rawCode else jsOrStr li.description "unknown"
  let itemInfo0 := if rawCode ≠ "" then alGet iIdx rawCode else none
  let title0 := jsOrStr (itemInfo0.bind (fun it => it.name))
    (jsOrStr (jsOrStr2 li.description li.itemCode) "Item")
  match itemInfo0 with
  | some _ => (pid0, title0, true, false)
  | none =>
    let normDesc := normalizeText li.description
    if normDesc ≠ "" then
      match alGet nIdx normDesc with
      | some hit =>
        let title1 := jsOrStr hit.name title0
        (jsOrStr hit.code title1, title1, false, true)
      | none => (pid0, title0, false, false)
    else (pid0, title0, false, false)

/-- Reference-based identity resolution for documents without line items
(source lines 536-562). -/
def resolveRefIdent (iIdx nIdx : List (String × ItemLite)) (inv : InvoiceLite) :
    String × String × Bool × Bool :=
  let reference := jsOrStr inv.reference ""
  let normalizedRef := normalizeText (some reference)
  let title0 := if reference ≠ "" then reference
    else "Invoice " ++ jsConcatStr (jsOrStr2 inv.invoiceNumber inv.invoiceID)
  if reference ≠ "" then
    match alGet iIdx (strUpper reference) with
    | some info => (strUpper reference, jsOrStr info.name title0, true, false)
    | none =>
      if normalizedRef ≠ "" then
        match alGet nIdx normalizedRef with
        | some hit =>
          let t := jsOrStr hit.name title0
          (jsOrStr hit.code t, t, false, true)
        | none => (reference, title0, false, false)
      else (reference, title0, false, false)
  else (reference, title0, false, false)

/-- Sales of the synthesized pseudo-line for a document with no line
items (source line 566): `sign * (Number(total || 0) - Number(totalTax || 0))`. -/
def fallbackSales (inv : InvoiceLite) : ℚ :=
  signOf inv * ((inv.total.getD 0) - (inv.totalTax.getD 0))

/-- State of the product fold: the flat `productMap` plus the counters
(the per-bucket `seriesProductMap`, which no claim reads, is omitted;
its updates do not feed back into any modelled value). -/
structure ProdAcc where
  productMap : List (String × (String × ℚ × ℚ))
  inferred : Nat
  codeMatches : Nat
  heurMatches : Nat
deriving DecidableEq

/-- One line item through the product fold (source lines 466-527). -/
def prodLineStep (iIdx nIdx : List (String × ItemLite)) (sign : ℚ)
    (st : ProdAcc) (li : LineItemLite) : ProdAcc :=
  let r := resolveLineIdent iIdx nIdx li
  { productMap := bumpProd st.productMap r.1 r.2.1 (prodLineQty sign li, prodLineSales sign li),
    inferred := st.inferred + (if lineQtyInferred li then 1 else 0),
    codeMatches := st.codeMatches + (if r.2.2.1 then 1 else 0),
    heurMatches := st.heurMatches + (if r.2.2.2 then 1 else 0) }

/-- One document through the product fold (source lines 438-582): lines
are processed individually; a document with no line items contributes
one synthesized pseudo-line and bumps `inferredQtyLines`. -/
def prodStep (iIdx nIdx : List (String × ItemLite)) (st : ProdAcc) (inv : InvoiceLite) :
    ProdAcc :=
  let sign := signOf inv
  let lineItems := itemsOf inv
  if !lineItems.isEmpty then lineItems.foldl (prodLineStep iIdx nIdx sign) st
  else
    let r := resolveRefIdent iIdx nIdx inv
    { productMap := bumpProd st.productMap r.1 r.2.1 (sign * 1, fallbackSales inv),
      inferred := st.inferred + 1,
      codeMatches := st.codeMatches + (if r.2.2.1 then 1 else 0),
      heurMatches := st.heurMatches + (if r.2.2.2 then 1 else 0) }

/-- The full product fold. -/
def prodFold (iIdx nIdx : List (String × ItemLite)) (invs : List InvoiceLite) : ProdAcc :=
  invs.foldl (prodStep iIdx nIdx) ⟨[], 0, 0, 0⟩

/-- Per-line contribution to the product map at a given product id. -/
def prodLineDeltaAt (iIdx nIdx : List (String × ItemLite)) (sign : ℚ)
    (li : LineItemLite) (k : String) : ℚ × ℚ :=
  if (resolveLineIdent iIdx nIdx li).1 = k then (prodLineQty sign li, prodLineSales sign li)
  else 0

/-- Per-document contribution to the product map at a given product id. -/
def prodDocDeltaAt (iIdx nIdx : List (String × ItemLite)) (inv : InvoiceLite)
    (k : String) : ℚ × ℚ :=
  let sign := signOf inv
  let lineItems := itemsOf inv
  if !lineItems.isEmpty then
    (lineItems.map (fun li => prodLineDeltaAt iIdx nIdx sign li k)).sum
  else if (resolveRefIdent iIdx nIdx inv).1 = k then (sign * 1, fallbackSales inv) else 0

/-- Document-level sales contribution to the product map (all lines, any
product id; independent of the catalog indexes, which only choose ids). -/
def docProdSales (inv : InvoiceLite) : ℚ :=
  let sign := signOf inv
  let lineItems := itemsOf inv
  if !lineItems.isEmpty then (lineItems.map (prodLineSales sign)).sum
  else fallbackSales inv

/-! ## Fold decomposition lemmas: each accumulator is the sum of
per-document contributions. -/

theorem bucketFold_valueAt_general (now : Int) (g : Granularity) :
    ∀ (l : List InvoiceLite) (st : BucketAcc) (k : String),
      valueAt ((l.foldl (bucketStep now g) st).map) k
        = valueAt st.map k + (l.map (fun inv => bucketDeltaAt now g inv k)).sum := by
  intro l
  induction l with
  | nil => intro st k; simp
  | cons d rest ih =>
    intro st k
    simp only [List.foldl_cons, List.map_cons, List.sum_cons]
    rw [ih]
    have hstep : valueAt ((bucketStep now g st d).map) k
        = valueAt st.map k + bucketDeltaAt now g d k := by
      simp only [bucketStep]
      rw [valueAt_bump]
      by_cases h : bucketKeyOf now g d = k <;> simp [bucketDeltaAt, h]
    rw [hstep]
    abel

theorem bucketFold_valueAt (now : Int) (g : Granularity) (l : List InvoiceLite) (k : String) :
    valueAt ((bucketFold now g l).map) k
      = (l.map (fun inv => bucketDeltaAt now g inv k)).sum := by
  have := bucketFold_valueAt_general now g l ⟨[], 0, 0, 0, 0⟩ k
  simpa [bucketFold, valueAt, alGet] using this

theorem bucketFold_svals_general (now : Int) (g : Granularity) :
    ∀ (l : List InvoiceLite) (st : BucketAcc),
      svals ((l.foldl (bucketStep now g) st).map)
        = svals st.map + (l.map (fun inv => (docBucketQty inv, docBucketSales inv))).sum := by
  intro l
  induction l with
  | nil => intro st; simp
  | cons d rest ih =>
    intro st
    simp only [List.foldl_cons, List.map_cons, List.sum_cons]
    rw [ih]
    have hstep : svals ((bucketStep now g st d).map)
        = svals st.map + (docBucketQty d, docBucketSales d) := by
      simp only [bucketStep]
      rw [svals_bump]
    rw [hstep]
    abel

theorem monthFold_valueAt_general (now : Int) :
    ∀ (l : List InvoiceLite) (st : MonthAcc) (k : String),
      valueAt ((l.foldl (monthStep now) st).map) k
        = valueAt st.map k + (l.map (fun inv => monthDeltaAt now inv k)).sum := by
  intro l
  induction l with
  | nil => intro st k; simp
  | cons d rest ih =>
    intro st k
    simp only [List.foldl_cons, List.map_cons, List.sum_cons]
    rw [ih]
    have hstep : valueAt ((monthStep now st d).map) k
        = valueAt st.map k + monthDeltaAt now d k := by
      simp only [monthStep]
      rw [valueAt_bump]
      by_cases h : monthKeyOf now d = k <;> simp [monthDeltaAt, h]
    rw [hstep]
    abel

theorem monthFold_valueAt (now : Int) (l : List InvoiceLite) (k : String) :
    valueAt ((monthFold now l).map) k = (l.map (fun inv => monthDeltaAt now inv k)).sum := by
  have := monthFold_valueAt_general now l ⟨[], 0⟩ k
  simpa [monthFold, valueAt, alGet] using this

theorem prodLines_pvalueAt_general (iIdx nIdx : List (String × ItemLite)) (sign : ℚ) :
    ∀ (lines : List LineItemLite) (st : ProdAcc) (k : String),
      pvalueAt ((lines.foldl (prodLineStep iIdx nIdx sign) st).productMap) k
        = pvalueAt st.productMap k
          + (lines.map (fun li => prodLineDeltaAt iIdx nIdx sign li k)).sum := by
  intro lines
  induction lines with
  | nil => intro st k; simp
  | cons li rest ih =>
    intro st k
    simp only [List.foldl_cons, List.map_cons, List.sum_cons]
    rw [ih]
    have hstep : pvalueAt ((prodLineStep iIdx nIdx sign st li).productMap) k
        = pvalueAt st.productMap k + prodLineDeltaAt iIdx nIdx sign li k := by
      simp only [prodLineStep]
      rw [pvalueAt_bumpProd]
      by_cases h : (resolveLineIdent iIdx nIdx li).1 = k <;> simp [prodLineDeltaAt, h]
    rw [hstep]
    abel

theorem prodStep_pvalueAt (iIdx nIdx : List (String × ItemLite)) (st : ProdAcc)
    (inv : InvoiceLite) (k : String) :
    pvalueAt ((prodStep iIdx nIdx st inv).productMap) k
      = pvalueAt st.productMap k + prodDocDeltaAt iIdx nIdx inv k := by
  simp only [prodStep, prodDocDeltaAt]
  cases hb : (itemsOf inv).isEmpty with
  | true =>
    simp only [hb, Bool.not_true, Bool.false_eq_true, if_false]
    rw [pvalueAt_bumpProd]
  | false =>
    simp only [hb, Bool.not_false, eq_self_iff_true, if_true]
    exact prodLines_pvalueAt_general iIdx nIdx (signOf inv) (itemsOf inv) st k

theorem prodFold_pvalueAt_general (iIdx nIdx : List (String × ItemLite)) :
    ∀ (l : List InvoiceLite) (st : ProdAcc) (k : String),
      pvalueAt ((l.foldl (prodStep iIdx nIdx) st).productMap) k
        = pvalueAt st.productMap k + (l.map (fun inv => prodDocDeltaAt iIdx nIdx inv k)).sum := by
  intro l
  induction l with
  | nil => intro st k; simp
  | cons d rest ih =>
    intro st k
    simp only [List.foldl_cons, List.map_cons, List.sum_cons]
    rw [ih, prodStep_pvalueAt]
    abel

theorem prodFold_pvalueAt (iIdx nIdx : List (String × ItemLite)) (l : List InvoiceLite)
    (k : String) :
    pvalueAt ((prodFold iIdx nIdx l).productMap) k
      = (l.map (fun inv => prodDocDeltaAt iIdx nIdx inv k)).sum := by
  have := prodFold_pvalueAt_general iIdx nIdx l ⟨[], 0, 0, 0⟩ k
  simpa [prodFold, pvalueAt, alGet] using this

theorem prodLines_psales_general (iIdx nIdx : List (String × ItemLite)) (sign : ℚ) :
    ∀ (lines : List LineItemLite) (st : ProdAcc),
      psales ((lines.foldl (prodLineStep iIdx nIdx sign) st).productMap)
        = psales st.productMap + (lines.map (prodLineSales sign)).sum := by
  intro lines
  induction lines with
  | nil => intro st; simp
  | cons li rest ih =>
    intro st
    simp only [List.foldl_cons, List.map_cons, List.sum_cons]
    rw [ih]
    have hstep : psales ((prodLineStep iIdx nIdx sign st li).productMap)
        = psales st.productMap + prodLineSales sign li := by
      simp only [prodLineStep]
      rw [psales_bumpProd]
    rw [hstep]
    ring

theorem prodStep_psales (iIdx nIdx : List (String × ItemLite)) (st : ProdAcc)
    (inv : InvoiceLite) :
    psales ((prodStep iIdx nIdx st inv).productMap)
      = psales st.productMap + docProdSales inv := by
  simp only [prodStep, docProdSales]
  cases hb : (itemsOf inv).isEmpty with
  | true =>
    simp only [hb, Bool.not_true, Bool.false_eq_true, if_false]
    rw [psales_bumpProd]
  | false =>
    simp only [hb, Bool.not_false, eq_self_iff_true, if_true]
    exact prodLines_psales_general iIdx nIdx (signOf inv) (itemsOf inv) st

theorem prodFold_psales_general (iIdx nIdx : List (String × ItemLite)) :
    ∀ (l : List InvoiceLite) (st : ProdAcc),
      psales ((l.foldl (prodStep iIdx nIdx) st).productMap)
        = psales st.productMap + (l.map docProdSales).sum := by
  intro l
  induction l with
  | nil => intro st; simp
  | cons d rest ih =>
    intro st
    simp only [List.foldl_cons, List.map_cons, List.sum_cons]
    rw [ih, prodStep_psales]
    ring

/-! ## Derived outputs: series, totals, salesByProduct (source lines 381-385,
654-662) -/

/-- Lexicographic order on character lists (JS default sort comparator on
code units; structurally recursive so the kernel can evaluate it). -/
def charListLe : List Char → List Char → Bool
  | [], _ => true
  | _ :: _, [] => false
  | a :: as, b :: bs => if a < b then true else if b < a then false else charListLe as bs

/-- Lexicographic `≤` on strings. -/
def strLe (a b : String) : Bool :=
  charListLe a.data b.data

/-- `Array.from(map.keys()).sort()` (lexicographic string sort). -/
def sortStrings (l : List String) : List String :=
  l.insertionSort (fun a b => strLe a b = true)

/-- `series` (source lines 382-383): the bucket map read out in sorted key
order (`map.get(k)!` modelled with the zero default; every listed key is
present). -/
def seriesOf (m : List (String × (ℚ × ℚ))) : List (String × (ℚ × ℚ)) :=
  (sortStrings (alKeys m)).map (fun k => (k, valueAt m k))

/-- `totals` (source line 385): `series.reduce(add, {qty: 0, sales: 0})`. -/
def totalsOf (m : List (String × (ℚ × ℚ))) : ℚ × ℚ :=
  ((seriesOf m).map (fun e => e.2)).foldl (fun a b => a + b) (0, 0)

/-- `salesByProduct` (source lines 655-657): the product map as records,
sorted descending by sales. -/
def salesByProductOf (iIdx nIdx : List (String × ItemLite)) (invs : List InvoiceLite) :
    List (String × String × ℚ × ℚ) :=
  (((prodFold iIdx nIdx invs).productMap).map
      (fun e => (e.1, e.2.1, e.2.2.1, e.2.2.2))).insertionSort
    (fun a b => b.2.2.2 ≤ a.2.2.2)

/-- Sum of the `sales` column of `salesByProduct`. -/
def sumSalesByProduct (iIdx nIdx : List (String × ItemLite)) (invs : List InvoiceLite) : ℚ :=
  ((salesByProductOf iIdx nIdx invs).map (fun e => e.2.2.2)).sum

/-- `totals.sales` for a document list (source lines 382-385 composed). -/
def totalsSales (now : Int) (g : Granularity) (invs : List InvoiceLite) : ℚ :=
  (totalsOf ((bucketFold now g invs).map)).2

theorem foldl_add_self {M : Type} [AddCommMonoid M] :
    ∀ (l : List M) (a : M), l.foldl (fun x y => x + y) a = a + l.sum := by
  intro l
  induction l with
  | nil => intro a; simp
  | cons x xs ih =>
    intro a
    simp only [List.foldl_cons, List.sum_cons, ih]
    rw [add_assoc]

theorem snd_sum_pairs {α : Type} (f : α → ℚ × ℚ) (l : List α) :
    ((l.map f).sum).2 = (l.map (fun x => (f x).2)).sum := by
  induction l with
  | nil => simp
  | cons x xs ih => simp [ih]

theorem map_valueAt_keys (m : List (String × (ℚ × ℚ))) (h : (alKeys m).Nodup) :
    (alKeys m).map (fun k => valueAt m k) = m.map (fun e => e.2) := by
  induction m with
  | nil => simp [alKeys]
  | cons e rest ih =>
    obtain ⟨ek, ev⟩ := e
    have hkeys : alKeys ((ek, ev) :: rest) = ek :: alKeys rest := rfl
    rw [hkeys] at h ⊢
    have hek : ek ∉ alKeys rest := (List.nodup_cons.1 h).1
    have hrest : (alKeys rest).Nodup := (List.nodup_cons.1 h).2
    simp only [List.map_cons]
    have h1 : valueAt ((ek, ev) :: rest) ek = ev := by
      simp [valueAt, alGet]
    have h2 : (alKeys rest).map (fun k => valueAt ((ek, ev) :: rest) k)
        = (alKeys rest).map (fun k => valueAt rest k) := by
      apply List.map_congr_left
      intro k hk
      have hne : ¬ ek = k := fun hcontra => hek (hcontra ▸ hk)
      simp [valueAt, alGet, hne]
    rw [h1, h2, ih hrest]

theorem totalsOf_eq_svals (m : List (String × (ℚ × ℚ))) (h : (alKeys m).Nodup) :
    totalsOf m = svals m := by
  unfold totalsOf seriesOf
  rw [foldl_add_self]
  have hz : ((0, 0) : ℚ × ℚ) = 0 := rfl
  rw [hz, zero_add]
  have hcomp : ((sortStrings (alKeys m)).map (fun k => (k, valueAt m k))).map
      (fun e => e.2) = (sortStrings (alKeys m)).map (fun k => valueAt m k) := by
    rw [List.map_map]
    rfl
  rw [hcomp]
  have hperm : List.Perm (sortStrings (alKeys m)) (alKeys m) := List.perm_insertionSort _ _
  have hsum : ((sortStrings (alKeys m)).map (fun k => valueAt m k)).sum
      = ((alKeys m).map (fun k => valueAt m k)).sum :=
    (hperm.map _).sum_eq
  rw [hsum, map_valueAt_keys m h]
  rfl

theorem bucketFold_keys_nodup (now : Int) (g : Granularity) :
    ∀ (l : List InvoiceLite) (st : BucketAcc),
      (alKeys st.map).Nodup → (alKeys ((l.foldl (bucketStep now g) st).map)).Nodup := by
  intro l
  induction l with
  | nil => intro st h; simpa using h
  | cons d rest ih =>
    intro st h
    simp only [List.foldl_cons]
    apply ih
    simp only [bucketStep, bump]
    exact alKeys_nodup_alSet _ _ _ h

theorem totalsSales_eq_sum_docBucketSales (now : Int) (g : Granularity)
    (invs : List InvoiceLite) :
    totalsSales now g invs = (invs.map docBucketSales).sum := by
  unfold totalsSales
  have hnodup : (alKeys ((bucketFold now g invs).map)).Nodup := by
    have := bucketFold_keys_nodup now g invs ⟨[], 0, 0, 0, 0⟩ (by simp [alKeys])
    simpa [bucketFold] using this
  rw [totalsOf_eq_svals _ hnodup]
  have hs := bucketFold_svals_general now g invs ⟨[], 0, 0, 0, 0⟩
  unfold bucketFold
  rw [hs]
  have hzero : svals (BucketAcc.mk [] 0 0 0 0).map = 0 := by
    simp [svals]
  rw [hzero, zero_add]
  exact snd_sum_pairs _ invs

theorem sumSalesByProduct_eq_sum_docProdSales (iIdx nIdx : List (String × ItemLite))
    (invs : List InvoiceLite) :
    sumSalesByProduct iIdx nIdx invs = (invs.map docProdSales).sum := by
  unfold sumSalesByProduct salesByProductOf
  have hperm : List.Perm
      ((((prodFold iIdx nIdx invs).productMap).map
          (fun e => (e.1, e.2.1, e.2.2.1, e.2.2.2))).insertionSort
        (fun a b => b.2.2.2 ≤ a.2.2.2))
      (((prodFold iIdx nIdx invs).productMap).map
          (fun e => (e.1, e.2.1, e.2.2.1, e.2.2.2))) := List.perm_insertionSort _ _
  have hsum := (hperm.map (fun e => e.2.2.2)).sum_eq
  rw [hsum, List.map_map]
  have hcomp : (((prodFold iIdx nIdx invs).productMap).map
      ((fun e => e.2.2.2) ∘ (fun e => (e.1, e.2.1, e.2.2.1, e.2.2.2)))).sum
      = psales ((prodFold iIdx nIdx invs).productMap) := by
    rfl
  rw [hcomp]
  have hp := prodFold_psales_general iIdx nIdx invs ⟨[], 0, 0, 0⟩
  unfold prodFold
  rw [hp]
  simp [psales]

/-! ## Month-over-month comparison (source lines 710-722) -/

/-- One `mom` row. -/
structure MomEntry where
  period : String
  prev : ℚ × ℚ
  curr : ℚ × ℚ
deriving DecidableEq

/-- Consecutive pairs of the sorted month keys (the loop
`for (let i = 1; i < sortedMonths.length; i++)`). -/
def momPairs : List String → List (String × String)
  | a :: b :: rest => (a, b) :: momPairs (b :: rest)
  | _ => []

/-- `sortedMonths` (source line 710). -/
def sortedMonthsOf (now : Int) (invs : List InvoiceLite) : List String :=
  sortStrings (alKeys ((monthFold now invs).map))

/-- `mom` (source lines 717-722).  The `monthlyMap.get(..)!` non-null
assertions are modelled with the zero default; both keys are always
present in the map. -/
def momOf (now : Int) (invs : List InvoiceLite) : List MomEntry :=
  let m := (monthFold now invs).map
  (momPairs (sortedMonthsOf now invs)).map
    (fun p => ⟨p.1 ++ " → " ++ p.2, valueAt m p.1, valueAt m p.2⟩)

theorem momPairs_length : ∀ (l : List String), (momPairs l).length = l.length - 1 := by
  intro l
  induction l with
  | nil => simp [momPairs]
  | cons a tail ih =>
    cases tail with
    | nil => simp [momPairs]
    | cons b rest =>
      simp only [momPairs, List.length_cons]
      rw [ih]
      simp

theorem momPairs_getD :
    ∀ (l : List String) (i : Nat) (d : String × String), i + 1 < l.length →
      (momPairs l).getD i d = (l.getD i "", l.getD (i + 1) "") := by
  intro l
  induction l with
  | nil => intro i d h; simp at h
  | cons a tail ih =>
    intro i d h
    cases tail with
    | nil => simp at h
    | cons b rest =>
      cases i with
      | zero => simp [momPairs]
      | succ j =>
        simp only [momPairs, List.getD_cons_succ]
        apply ih
        simpa using h

theorem getD_map_lt {α β : Type} (f : α → β) :
    ∀ (l : List α) (i : Nat) (dflt : β) (d : α), i < l.length →
      (l.map f).getD i dflt = f (l.getD i d) := by
  intro l
  induction l with
  | nil => intro i dflt d h; simp at h
  | cons a tail ih =>
    intro i dflt d h
    cases i with
    | zero => simp
    | succ j =>
      simp only [List.map_cons, List.getD_cons_succ]
      apply ih
      simpa using h

theorem getD_mem_of_lt {α : Type} :
    ∀ (l : List α) (i : Nat) (d : α), i < l.length → l.getD i d ∈ l := by
  intro l
  induction l with
  | nil => intro i d h; simp at h
  | cons a tail ih =>
    intro i d h
    cases i with
    | zero => simp
    | succ j =>
      simp only [List.getD_cons_succ]
      exact List.mem_cons_of_mem a (ih j d (by simpa using h))

/-! ## Auth-retry wrapper `requestWithRetry` (source lines 135-159) -/

/-- The error-shape the handler inspects:
`err?.response?.{statusCode, status, body.Title}`. -/
structure ErrResp where
  statusCode : Option Nat
  status : Option Nat
  title : Option String
deriving DecidableEq

/-- A provider error (`response` may be absent). -/
structure ProviderErr where
  response : Option ErrResp
deriving DecidableEq

/-- JS `a || b` on possibly-absent numbers (`0` is falsy). -/
def jsOrNum (a b : Option Nat) : Option Nat :=
  match a with
  | some n => if n = 0 then b else some n
  | none => b

/-- `unauthorized` (source lines 140-141): status 401, or the body title
contains "unauthorized" (case-insensitive). -/
def unauthorizedErr (e : ProviderErr) : Bool :=
  let status := jsOrNum (e.response.bind (fun r => r.statusCode))
    (e.response.bind (fun r => r.status))
  status = some 401
    || strIncludes (strLower ((e.response.bind (fun r => r.title)).getD "")) "unauthorized"

/-- Observable behaviour of one `requestWithRetry` run: how many times the
wrapped call ran, how many refresh attempts were made (the `try { ...
refreshToken ... } catch {}` block), and the final outcome. -/
structure RetryTrace (α : Type) where
  calls : Nat
  refreshAttempts : Nat
  result : Except ProviderErr α

/-- `requestWithRetry` (source lines 135-159): `fn i` is the outcome of
the i-th invocation of the wrapped call.  A first success returns; an
unauthorized first failure triggers one refresh attempt and exactly one
retry whose outcome (success or failure) is final; any other first
failure is rethrown immediately. -/
def requestWithRetry {α : Type} (fn : Nat → Except ProviderErr α) : RetryTrace α :=
  match fn 0 with
  | Except.ok v => ⟨1, 0, Except.ok v⟩
  | Except.error e =>
    if unauthorizedErr e then ⟨2, 1, fn 1⟩
    else ⟨1, 0, Except.error e⟩

/-! ## Sign linearity: every fold contribution is `sign * content`, with
the content independent of the document type. -/

theorem sum_map_smul {α : Type} (c : ℚ) (f : α → ℚ) :
    ∀ (l : List α), (l.map (fun x => c * f x)).sum = c * (l.map f).sum := by
  intro l
  induction l with
  | nil => simp
  | cons x xs ih => simp [ih]; ring

theorem sum_map_neg_group {α M : Type} [AddCommGroup M] (f : α → M) :
    ∀ (l : List α), (l.map (fun x => -f x)).sum = -(l.map f).sum := by
  intro l
  induction l with
  | nil => simp
  | cons x xs ih => simp [ih]; abel

/-- Type-independent content of the bucket/monthly quantity contribution. -/
def bucketQtyCore (inv : InvoiceLite) : ℚ :=
  ((itemsOf inv).map lineEffQty).sum
    + (if (itemsOf inv).isEmpty && inv.total.isSome then 1 else 0)

/-- Type-independent content of the bucket/monthly sales contribution. -/
def bucketSalesCore (inv : InvoiceLite) : ℚ :=
  match inv.total with
  | some t => if latInclusive inv then t - taxSum (itemsOf inv) else t
  | none => ((itemsOf inv).map bucketLinePretax).sum

theorem docBucketQty_eq (inv : InvoiceLite) :
    docBucketQty inv = signOf inv * bucketQtyCore inv := by
  simp only [docBucketQty, bucketQtyCore]
  rw [foldl_add_map (fun li => signOf inv * lineEffQty li) (itemsOf inv) 0]
  rw [sum_map_smul (signOf inv) lineEffQty]
  by_cases h : (itemsOf inv).isEmpty && inv.total.isSome
  · simp only [h, if_true]
    ring
  · simp only [h, Bool.false_eq_true, if_false]
    ring

theorem docBucketSales_eq (inv : InvoiceLite) :
    docBucketSales inv = signOf inv * bucketSalesCore inv := by
  simp only [docBucketSales, bucketSalesCore]
  cases ht : inv.total with
  | some t =>
    by_cases hl : latInclusive inv <;> simp [hl]
  | none =>
    rw [foldl_add_map (fun li => signOf inv * bucketLinePretax li) (itemsOf inv) 0]
    rw [sum_map_smul (signOf inv) bucketLinePretax]
    ring

theorem docMonthQty_eq (inv : InvoiceLite) :
    docMonthQty inv = signOf inv * bucketQtyCore inv := by
  simp only [docMonthQty, bucketQtyCore]
  rw [foldl_add_map (fun li => signOf inv * lineEffQty li) (itemsOf inv) 0]
  rw [sum_map_smul (signOf inv) lineEffQty]
  by_cases h : (itemsOf inv).isEmpty && inv.total.isSome
  · simp only [h, if_true]
    ring
  · simp only [h, Bool.false_eq_true, if_false]
    ring

theorem docMonthSales_eq (inv : InvoiceLite) :
    docMonthSales inv = signOf inv * bucketSalesCore inv := by
  have hsame : monthLineSales = bucketLinePretax := rfl
  simp only [docMonthSales, bucketSalesCore, hsame]
  cases ht : inv.total with
  | some t =>
    by_cases hl : latInclusive inv <;> simp [hl]
  | none =>
    rw [foldl_add_map (fun li => signOf inv * bucketLinePretax li) (itemsOf inv) 0]
    rw [sum_map_smul (signOf inv) bucketLinePretax]
    ring

/-- The same document re-typed as a plain sales invoice (identical
content, type `ACCREC`). -/
def asSalesInvoice (inv : InvoiceLite) : InvoiceLite :=
  { inv with type := some "ACCREC" }

theorem isCreditDoc_asSalesInvoice (inv : InvoiceLite) :
    isCreditDoc (asSalesInvoice inv) = false := rfl

theorem signOf_asSalesInvoice (inv : InvoiceLite) :
    signOf (asSalesInvoice inv) = 1 := by
  simp [signOf, isCreditDoc_asSalesInvoice]

theorem bucketDeltaAt_negation (now : Int) (g : Granularity) (inv : InvoiceLite)
    (k : String) (h : isCreditDoc inv = true) :
    bucketDeltaAt now g (asSalesInvoice inv) k = -bucketDeltaAt now g inv k := by
  have hkey : bucketKeyOf now g (asSalesInvoice inv) = bucketKeyOf now g inv := rfl
  have hs1 : signOf (asSalesInvoice inv) = 1 := signOf_asSalesInvoice inv
  have hs2 : signOf inv = -1 := by simp [signOf, h]
  have hqc : bucketQtyCore (asSalesInvoice inv) = bucketQtyCore inv := rfl
  have hsc : bucketSalesCore (asSalesInvoice inv) = bucketSalesCore inv := rfl
  unfold bucketDeltaAt
  rw [hkey]
  by_cases hk : bucketKeyOf now g inv = k
  · simp only [hk, if_true, eq_self_iff_true]
    rw [docBucketQty_eq, docBucketSales_eq, docBucketQty_eq, docBucketSales_eq,
      hs1, hs2, hqc, hsc]
    rw [Prod.ext_iff]
    constructor <;> simp
  · simp [hk]

theorem monthDeltaAt_negation (now : Int) (inv : InvoiceLite) (k : String)
    (h : isCreditDoc inv = true) :
    monthDeltaAt now (asSalesInvoice inv) k = -monthDeltaAt now inv k := by
  have hkey : monthKeyOf now (asSalesInvoice inv) = monthKeyOf now inv := rfl
  have hs1 : signOf (asSalesInvoice inv) = 1 := signOf_asSalesInvoice inv
  have hs2 : signOf inv = -1 := by simp [signOf, h]
  have hqc : bucketQtyCore (asSalesInvoice inv) = bucketQtyCore inv := rfl
  have hsc : bucketSalesCore (asSalesInvoice inv) = bucketSalesCore inv := rfl
  unfold monthDeltaAt
  rw [hkey]
  by_cases hk : monthKeyOf now inv = k
  · simp only [hk, if_true, eq_self_iff_true]
    rw [docMonthQty_eq, docMonthSales_eq, docMonthQty_eq, docMonthSales_eq,
      hs1, hs2, hqc, hsc]
    rw [Prod.ext_iff]
    constructor <;> simp
  · simp [hk]

theorem prodLineDeltaAt_negation (iIdx nIdx : List (String × ItemLite))
    (li : LineItemLite) (k : String) :
    prodLineDeltaAt iIdx nIdx 1 li k = -prodLineDeltaAt iIdx nIdx (-1) li k := by
  unfold prodLineDeltaAt prodLineQty prodLineSales
  by_cases hk : (resolveLineIdent iIdx nIdx li).1 = k
  · simp only [hk, if_true, eq_self_iff_true]
    rw [Prod.ext_iff]
    constructor <;> simp
  · simp [hk]

theorem prodDocDeltaAt_negation (iIdx nIdx : List (String × ItemLite))
    (inv : InvoiceLite) (k : String) (h : isCreditDoc inv = true) :
    prodDocDeltaAt iIdx nIdx (asSalesInvoice inv) k = -prodDocDeltaAt iIdx nIdx inv k := by
  have hs1 : signOf (asSalesInvoice inv) = 1 := signOf_asSalesInvoice inv
  have hs2 : signOf inv = -1 := by simp [signOf, h]
  have hitems : itemsOf (asSalesInvoice inv) = itemsOf inv := rfl
  have href : resolveRefIdent iIdx nIdx (asSalesInvoice inv) = resolveRefIdent iIdx nIdx inv :=
    rfl
  have hfb : (asSalesInvoice inv).total = inv.total := rfl
  have hfb2 : (asSalesInvoice inv).totalTax = inv.totalTax := rfl
  simp only [prodDocDeltaAt, hitems, href, hs1, hs2]
  cases hb : (itemsOf inv).isEmpty with
  | false =>
    simp only [Bool.not_false, eq_self_iff_true, if_true]
    have hcong : (itemsOf inv).map (fun li => prodLineDeltaAt iIdx nIdx 1 li k)
        = (itemsOf inv).map (fun li => -prodLineDeltaAt iIdx nIdx (-1) li k) := by
      apply List.map_congr_left
      intro li _
      exact prodLineDeltaAt_negation iIdx nIdx li k
    rw [hcong, sum_map_neg_group]
  | true =>
    simp only [Bool.not_true, Bool.false_eq_true, if_false]
    have hfbs : fallbackSales (asSalesInvoice inv) = -fallbackSales inv := by
      simp only [fallbackSales, hs1, hs2, hfb, hfb2]
      ring
    by_cases hk : (resolveRefIdent iIdx nIdx inv).1 = k
    · simp only [hk, if_true, eq_self_iff_true, hfbs]
      rw [Prod.ext_iff]
      constructor <;> simp
    · simp [hk]

/-! ## Claim theorems -/

/-! ### C1: reconciliation of salesByProduct against totals.sales -/

/-- Claim C1 fixture: a retained sales invoice whose document-level total (100)
disagrees with its line-level pre-tax sum (50). -/
def c1Inv : InvoiceLite :=
  { date := some "2024-01-15", type := some "ACCREC", status := some "AUTHORISED",
    total := some 100, lineItems := some [{ lineAmount := some 50 }] }

/-- Claim C1 counterexample: with one retained invoice whose document total is
100 but whose only line has lineAmount 50, `totals.sales` is 100 (the
bucket fold prefers the signed document total) while the product map sums
to 50 (line-level pre-tax amounts) — the claimed reconciliation equality
fails, and the gap (50) is far beyond floating-point epsilon. -/
theorem c1_reconciliation_counterexample :
    sumSalesByProduct [] [] [c1Inv] = 50
    ∧ totalsSales 0 Granularity.day [c1Inv] = 100
    ∧ sumSalesByProduct [] [] [c1Inv] ≠ totalsSales 0 Granularity.day [c1Inv] := by
  have hsign : signOf c1Inv = 1 := by decide
  have hlat : latInclusive c1Inv = false := by decide
  have h1 : sumSalesByProduct [] [] [c1Inv] = 50 := by
    rw [sumSalesByProduct_eq_sum_docProdSales]
    simp only [docProdSales, List.map_cons, List.map_nil, List.sum_cons, List.sum_nil]
    have hitems : itemsOf c1Inv = [{ lineAmount := some 50 }] := rfl
    rw [hitems, hsign]
    simp [prodLineSales]
  have h2 : totalsSales 0 Granularity.day [c1Inv] = 100 := by
    rw [totalsSales_eq_sum_docBucketSales]
    simp only [List.map_cons, List.map_nil, List.sum_cons, List.sum_nil]
    simp only [docBucketSales, hlat, hsign]
    have htot : c1Inv.total = some 100 := rfl
    rw [htot]
    simp
  refine ⟨h1, h2, ?_⟩
  rw [h1, h2]
  norm_num

/-- Claim C1 amended: the reconciliation holds (exactly, in the rational model)
when every retained document derives its bucket sales from its lines,
i.e. every document has a nonempty line-item list and no document-level
`total` field; in general the two folds differ whenever a document total
disagrees with the line-level pre-tax sum (see the counterexample). -/
theorem c1_reconciliation_amended (now : Int) (g : Granularity)
    (iIdx nIdx : List (String × ItemLite)) (invs : List InvoiceLite)
    (h : ∀ inv ∈ invs, itemsOf inv ≠ [] ∧ inv.total = none) :
    sumSalesByProduct iIdx nIdx invs = totalsSales now g invs := by
  rw [sumSalesByProduct_eq_sum_docProdSales, totalsSales_eq_sum_docBucketSales]
  have hcong : invs.map docProdSales = invs.map docBucketSales := by
    apply List.map_congr_left
    intro inv hm
    obtain ⟨hne, htot⟩ := h inv hm
    have hempty : (itemsOf inv).isEmpty = false := by
      cases hval : itemsOf inv with
      | nil => exact absurd hval hne
      | cons a t => rfl
    simp only [docProdSales, hempty, Bool.not_false, eq_self_iff_true, if_true]
    simp only [docBucketSales, htot]
    rw [foldl_add_map (fun li => signOf inv * bucketLinePretax li) (itemsOf inv) 0]
    have hps : prodLineSales (signOf inv) = fun li => signOf inv * bucketLinePretax li := rfl
    rw [hps, sum_map_smul (signOf inv) bucketLinePretax]
    ring
  rw [hcong]

/-- Claim C1 witness fixture: one retained invoice with a line list and no
document total. -/
def c1wInv : InvoiceLite :=
  { date := some "2024-01-15", type := some "ACCREC", status := some "AUTHORISED",
    lineItems := some [{ quantity := some 2, unitAmount := some 10 }] }

/-- Claim C1 witness: the amended reconciliation at a concrete input. -/
theorem c1_reconciliation_amended_witness :
    (∀ inv ∈ [c1wInv], itemsOf inv ≠ [] ∧ inv.total = none)
    ∧ sumSalesByProduct [] [] [c1wInv] = totalsSales 0 Granularity.day [c1wInv] :=
  ⟨by decide, c1_reconciliation_amended 0 Granularity.day [] [] [c1wInv] (by decide)⟩

/-! ### C2: a credit note's contribution negates an identical sales
invoice's contribution in every fold -/

/-- Claim C2: inserting a credit-note document anywhere in the list changes the
bucket map, the flat product map, and the monthly map at every key by
exactly the negation of what inserting the identical-content sales
invoice (same document, type ACCREC) would change them by — the folds
apply sign -1 for credit notes and +1 otherwise to both quantity and
pre-tax amount.  (Restricted to documents whose date resolves, where the
source's key formatting does not throw.) -/
theorem c2_credit_negates_contribution (inv : InvoiceLite) (now : Int) (g : Granularity)
    (iIdx nIdx : List (String × ItemLite)) (l r : List InvoiceLite) (k : String)
    (h1 : isCreditDoc inv = true) (_h2 : (invDate now inv).isSome = true) :
    (valueAt ((bucketFold now g (l ++ inv :: r)).map) k
        - valueAt ((bucketFold now g (l ++ r)).map) k
      = -(valueAt ((bucketFold now g (l ++ asSalesInvoice inv :: r)).map) k
          - valueAt ((bucketFold now g (l ++ r)).map) k))
    ∧ (pvalueAt ((prodFold iIdx nIdx (l ++ inv :: r)).productMap) k
        - pvalueAt ((prodFold iIdx nIdx (l ++ r)).productMap) k
      = -(pvalueAt ((prodFold iIdx nIdx (l ++ asSalesInvoice inv :: r)).productMap) k
          - pvalueAt ((prodFold iIdx nIdx (l ++ r)).productMap) k))
    ∧ (valueAt ((monthFold now (l ++ inv :: r)).map) k
        - valueAt ((monthFold now (l ++ r)).map) k
      = -(valueAt ((monthFold now (l ++ asSalesInvoice inv :: r)).map) k
          - valueAt ((monthFold now (l ++ r)).map) k)) := by
  have hb := bucketDeltaAt_negation now g inv k h1
  have hp := prodDocDeltaAt_negation iIdx nIdx inv k h1
  have hm := monthDeltaAt_negation now inv k h1
  refine ⟨?_, ?_, ?_⟩
  · simp only [bucketFold_valueAt, List.map_append, List.sum_append, List.map_cons,
      List.sum_cons, hb]
    abel
  · simp only [prodFold_pvalueAt, List.map_append, List.sum_append, List.map_cons,
      List.sum_cons, hp]
    abel
  · simp only [monthFold_valueAt, List.map_append, List.sum_append, List.map_cons,
      List.sum_cons, hm]
    abel

/-- Claim C2 fixture: a concrete sales credit note. -/
def c2Credit : InvoiceLite :=
  { date := some "2024-02-10", type := some "ACCRECCREDIT", status := some "AUTHORISED",
    total := some 40, lineItems := some [{ quantity := some 1, unitAmount := some 40 }] }

/-- Claim C2 witness: the negation property at a concrete credit note. -/
theorem c2_credit_negates_contribution_witness :
    isCreditDoc c2Credit = true
    ∧ (invDate 0 c2Credit).isSome = true
    ∧ ((valueAt ((bucketFold 0 Granularity.day ([] ++ c2Credit :: [])).map) "2024-02-10"
          - valueAt ((bucketFold 0 Granularity.day ([] ++ [])).map) "2024-02-10"
        = -(valueAt ((bucketFold 0 Granularity.day
                ([] ++ asSalesInvoice c2Credit :: [])).map) "2024-02-10"
            - valueAt ((bucketFold 0 Granularity.day ([] ++ [])).map) "2024-02-10"))
      ∧ (pvalueAt ((prodFold [] [] ([] ++ c2Credit :: [])).productMap) "2024-02-10"
          - pvalueAt ((prodFold [] [] ([] ++ [])).productMap) "2024-02-10"
        = -(pvalueAt ((prodFold [] [] ([] ++ asSalesInvoice c2Credit :: [])).productMap)
              "2024-02-10"
            - pvalueAt ((prodFold [] [] ([] ++ [])).productMap) "2024-02-10"))
      ∧ (valueAt ((monthFold 0 ([] ++ c2Credit :: [])).map) "2024-02-10"
          - valueAt ((monthFold 0 ([] ++ [])).map) "2024-02-10"
        = -(valueAt ((monthFold 0 ([] ++ asSalesInvoice c2Credit :: [])).map) "2024-02-10"
            - valueAt ((monthFold 0 ([] ++ [])).map) "2024-02-10"))) :=
  ⟨by decide, by decide,
    c2_credit_negates_contribution c2Credit 0 Granularity.day [] [] [] [] "2024-02-10"
      (by decide) (by decide)⟩

/-! ### C3: fold-order invariance under permutations -/

/-- Claim C3: permuting the input document list leaves every accumulated sum
unchanged — at every key, the bucket map, the flat product map, and the
monthly map agree between the two runs (exact rational additions commute
and associate). -/
theorem c3_fold_order_invariance (l1 l2 : List InvoiceLite) (now : Int)
    (g : Granularity) (iIdx nIdx : List (String × ItemLite)) (k : String)
    (h : List.Perm l1 l2) :
    valueAt ((bucketFold now g l1).map) k = valueAt ((bucketFold now g l2).map) k
    ∧ pvalueAt ((prodFold iIdx nIdx l1).productMap) k
        = pvalueAt ((prodFold iIdx nIdx l2).productMap) k
    ∧ valueAt ((monthFold now l1).map) k = valueAt ((monthFold now l2).map) k := by
  refine ⟨?_, ?_, ?_⟩
  · rw [bucketFold_valueAt, bucketFold_valueAt]
    exact (h.map _).sum_eq
  · rw [prodFold_pvalueAt, prodFold_pvalueAt]
    exact (h.map _).sum_eq
  · rw [monthFold_valueAt, monthFold_valueAt]
    exact (h.map _).sum_eq

/-- Claim C3 fixtures: two retained invoices, swapped. -/
def c3A : InvoiceLite :=
  { date := some "2024-01-15", type := some "ACCREC", status := some "AUTHORISED",
    total := some 10 }

/-- Second C3 fixture invoice. -/
def c3B : InvoiceLite :=
  { date := some "2024-01-20", type := some "ACCRECCREDIT", status := some "PAID",
    total := some 4 }

/-- Claim C3 witness: fold-order invariance for a concrete two-element swap. -/
theorem c3_fold_order_invariance_witness :
    List.Perm [c3A, c3B] [c3B, c3A]
    ∧ (valueAt ((bucketFold 0 Granularity.day [c3A, c3B]).map) "2024-01-15"
          = valueAt ((bucketFold 0 Granularity.day [c3B, c3A]).map) "2024-01-15"
      ∧ pvalueAt ((prodFold [] [] [c3A, c3B]).productMap) "2024-01-15"
          = pvalueAt ((prodFold [] [] [c3B, c3A]).productMap) "2024-01-15"
      ∧ valueAt ((monthFold 0 [c3A, c3B]).map) "2024-01-15"
          = valueAt ((monthFold 0 [c3B, c3A]).map) "2024-01-15") :=
  ⟨List.Perm.swap c3B c3A [],
    c3_fold_order_invariance [c3A, c3B] [c3B, c3A] 0 Granularity.day [] [] "2024-01-15"
      (List.Perm.swap c3B c3A [])⟩

/-! ### C4: line normalization -/

/-- Claim C4 fixture: the spec's Scenario 1 line
`{quantity: 2, unitAmount: 10, taxAmount: 2}`, no lineAmount. -/
def c4Line : LineItemLite :=
  { quantity := some 2, unitAmount := some 10, taxAmount := some 2 }

/-- Claim C4: the product fold's effective per-line pre-tax amount is
`sign * ((lineAmount ?? unitAmount * quantity) - (taxAmount ?? 0))`, and
on the Scenario-1 line (qty 2, unit 10, tax 2, no lineAmount, sign +1)
this yields 2 * 10 - 2 = 18 with effective quantity 2. -/
theorem c4_line_normalization :
    (∀ (sign : ℚ) (li : LineItemLite),
        prodLineSales sign li
          = sign * ((li.lineAmount.getD ((li.unitAmount.getD 0) * (li.quantity.getD 0)))
              - li.taxAmount.getD 0))
    ∧ prodLineSales 1 c4Line = 18
    ∧ prodLineQty 1 c4Line = 2 := by
  refine ⟨fun sign li => rfl, ?_, ?_⟩
  · simp only [prodLineSales, c4Line]
    norm_num
  · simp only [prodLineQty, lineEffQty, lineQtyInferred, lineHasAmount, c4Line]
    norm_num

/-! ### C5: synthesized pseudo-line for a document with no line items -/

/-- Claim C5: for a retained document with no line items, total 100 and
totalTax 10, the product fold synthesizes exactly one pseudo-line:
the product map changes only at the reference-resolved product id, by
(sign * 1, sign * 90), and `inferredQtyLines` is incremented by one. -/
theorem c5_no_line_items_pseudo_line (iIdx nIdx : List (String × ItemLite))
    (st : ProdAcc) (inv : InvoiceLite) (k : String)
    (h1 : itemsOf inv = []) (h2 : inv.total = some 100) (h3 : inv.totalTax = some 10) :
    (prodStep iIdx nIdx st inv).inferred = st.inferred + 1
    ∧ pvalueAt ((prodStep iIdx nIdx st inv).productMap) k
        = pvalueAt st.productMap k
          + (if (resolveRefIdent iIdx nIdx inv).1 = k
             then (signOf inv * 1, signOf inv * 90) else 0) := by
  have hempty : (itemsOf inv).isEmpty = true := by rw [h1]; rfl
  constructor
  · simp only [prodStep, hempty, Bool.not_true, Bool.false_eq_true, if_false]
  · simp only [prodStep, hempty, Bool.not_true, Bool.false_eq_true, if_false]
    rw [pvalueAt_bumpProd]
    have hfb : fallbackSales inv = signOf inv * 90 := by
      simp only [fallbackSales, h2, h3]
      norm_num
    rw [hfb]

/-- Claim C5 fixture: a retained invoice with no line items, total 100,
totalTax 10, and a free-text reference. -/
def c5Inv : InvoiceLite :=
  { date := some "2024-04-01", type := some "ACCREC", status := some "AUTHORISED",
    total := some 100, totalTax := some 10, reference := some "WIDGET-1" }

/-- Claim C5 witness: the synthesized pseudo-line at a concrete document. -/
theorem c5_no_line_items_pseudo_line_witness :
    itemsOf c5Inv = []
    ∧ c5Inv.total = some 100
    ∧ c5Inv.totalTax = some 10
    ∧ ((prodStep [] [] ⟨[], 0, 0, 0⟩ c5Inv).inferred = (ProdAcc.mk [] 0 0 0).inferred + 1
      ∧ pvalueAt ((prodStep [] [] ⟨[], 0, 0, 0⟩ c5Inv).productMap) "WIDGET-1"
          = pvalueAt (ProdAcc.mk [] 0 0 0).productMap "WIDGET-1"
            + (if (resolveRefIdent [] [] c5Inv).1 = "WIDGET-1"
               then (signOf c5Inv * 1, signOf c5Inv * 90) else 0)) :=
  ⟨by decide, by decide, by decide,
    c5_no_line_items_pseudo_line [] [] ⟨[], 0, 0, 0⟩ c5Inv "WIDGET-1"
      (by decide) (by decide) (by decide)⟩

/-! ### C6: the type classifier (corrected: a document with no recorded
type is treated as a sales document and retained, not excluded) -/

/-- Claim C6 counterexample fixture: a document with no recorded type, good
status and in-range date. -/
def c6Untyped : InvoiceLite :=
  { date := some "2024-01-15", status := some "AUTHORISED" }

/-- Claim C6 counterexample: the claim says a document with no recorded type is
excluded and counted in `excludedNonSales`; the code's
`isSales = ... || !inv.type` retains it and counts nothing. -/
theorem c6_untyped_retained_counterexample :
    (filterDocs false (some (daysFromCivil 2024 1 1)) (some (daysFromCivil 2024 12 31))
        [c6Untyped]).invoices = [c6Untyped]
    ∧ (filterDocs false (some (daysFromCivil 2024 1 1)) (some (daysFromCivil 2024 12 31))
        [c6Untyped]).excludedNonSales = 0 := by
  constructor
  · decide
  · decide

/-- Claim C6 amended: the classifier retains a document by type exactly when it
is a sales invoice (ACCREC), a sales credit note (ACCRECCREDIT), has a
falsy (missing or empty) type, or purchases are opted in and it is a
purchase (ACCPAY); a document with a truthy date failing this predicate
increments `excludedNonSales` and is dropped. -/
theorem c6_classifier_type_semantics (ip : Bool) (inv : InvoiceLite)
    (sD eD : Option Int) (st : FilterAcc)
    (hd : dateTruthy inv = true) (ht : typeOk ip inv = false) :
    (typeOk ip inv
        = (typeUpper inv = "ACCREC" || typeUpper inv = "ACCRECCREDIT"
            || !(strTruthy inv.type) || (ip && isPurchaseType inv)))
    ∧ filterStep ip sD eD st inv
        = { st with excludedNonSales := st.excludedNonSales + 1 } := by
  constructor
  · simp [typeOk, isSalesType, Bool.or_assoc]
  · simp only [filterStep, hd, Bool.not_true, Bool.false_eq_true, if_false, ht,
      Bool.not_false, eq_self_iff_true, if_true]

/-- Claim C6 witness fixture: a purchase-typed document with purchases not
opted in. -/
def c6Bad : InvoiceLite :=
  { date := some "2024-01-15", type := some "ACCPAY", status := some "AUTHORISED" }

/-- Claim C6 witness: the amended classifier semantics at a concrete document. -/
theorem c6_classifier_type_semantics_witness :
    dateTruthy c6Bad = true
    ∧ typeOk false c6Bad = false
    ∧ ((typeOk false c6Bad
          = (typeUpper c6Bad = "ACCREC" || typeUpper c6Bad = "ACCRECCREDIT"
              || !(strTruthy c6Bad.type) || (false && isPurchaseType c6Bad)))
      ∧ filterStep false none none ⟨[], 0, 0⟩ c6Bad
          = { FilterAcc.mk [] 0 0 with
              excludedNonSales := (FilterAcc.mk [] 0 0).excludedNonSales + 1 }) :=
  ⟨by decide, by decide,
    c6_classifier_type_semantics false c6Bad none none ⟨[], 0, 0⟩ (by decide) (by decide)⟩

/-! ### C7: MoM rows pair adjacent present months exactly -/

/-- Claim C7: the `mom` array has one row per adjacent pair in the sorted month
key list; row i's `prev` is the monthly-map value of the earlier month
and `curr` that of the later month, exactly, and both months are present
in the monthly map (a calendar gap month with no data never appears —
pairs are adjacent in the sorted key list, not calendar-consecutive). -/
theorem c7_mom_adjacent_months (now : Int) (invs : List InvoiceLite) (i : Nat)
    (h : i + 1 < (sortedMonthsOf now invs).length) :
    (momOf now invs).length = (sortedMonthsOf now invs).length - 1
    ∧ (momOf now invs).getD i ⟨"", (0, 0), (0, 0)⟩
        = ⟨(sortedMonthsOf now invs).getD i "" ++ " → "
              ++ (sortedMonthsOf now invs).getD (i + 1) "",
           valueAt ((monthFold now invs).map) ((sortedMonthsOf now invs).getD i ""),
           valueAt ((monthFold now invs).map) ((sortedMonthsOf now invs).getD (i + 1) "")⟩
    ∧ (alGet ((monthFold now invs).map) ((sortedMonthsOf now invs).getD i "")).isSome = true
    ∧ (alGet ((monthFold now invs).map)
        ((sortedMonthsOf now invs).getD (i + 1) "")).isSome = true := by
  have hlen : (momOf now invs).length = (sortedMonthsOf now invs).length - 1 := by
    simp only [momOf, List.length_map]
    exact momPairs_length _
  have hbound : i < (momPairs (sortedMonthsOf now invs)).length := by
    rw [momPairs_length]
    omega
  have hmem : ∀ j, j < (sortedMonthsOf now invs).length →
      (alGet ((monthFold now invs).map) ((sortedMonthsOf now invs).getD j "")).isSome = true := by
    intro j hj
    have hmemSorted : (sortedMonthsOf now invs).getD j "" ∈ sortedMonthsOf now invs :=
      getD_mem_of_lt _ j "" hj
    have hpermKeys : List.Perm (sortedMonthsOf now invs)
        (alKeys ((monthFold now invs).map)) := List.perm_insertionSort _ _
    have hmemKeys : (sortedMonthsOf now invs).getD j "" ∈ alKeys ((monthFold now invs).map) :=
      hpermKeys.mem_iff.1 hmemSorted
    exact alGet_isSome_of_mem_keys _ _ hmemKeys
  refine ⟨hlen, ?_, hmem i (by omega), hmem (i + 1) h⟩
  simp only [momOf]
  rw [getD_map_lt _ (momPairs (sortedMonthsOf now invs)) i _ ("", "") hbound]
  rw [momPairs_getD (sortedMonthsOf now invs) i ("", "") h]

/-- Claim C7 fixture: an invoice in January 2024. -/
def c7A : InvoiceLite :=
  { date := some "2024-01-15", type := some "ACCREC", status := some "AUTHORISED",
    total := some 10 }

/-- Claim C7 fixture: an invoice in March 2024 (February has no data and is
skipped, not zero-filled). -/
def c7B : InvoiceLite :=
  { date := some "2024-03-02", type := some "ACCREC", status := some "AUTHORISED",
    total := some 7 }

/-- Claim C7 witness: the MoM pairing at a concrete two-month data set. -/
theorem c7_mom_adjacent_months_witness :
    0 + 1 < (sortedMonthsOf 0 [c7A, c7B]).length
    ∧ ((momOf 0 [c7A, c7B]).length = (sortedMonthsOf 0 [c7A, c7B]).length - 1
      ∧ (momOf 0 [c7A, c7B]).getD 0 ⟨"", (0, 0), (0, 0)⟩
          = ⟨(sortedMonthsOf 0 [c7A, c7B]).getD 0 "" ++ " → "
                ++ (sortedMonthsOf 0 [c7A, c7B]).getD 1 "",
             valueAt ((monthFold 0 [c7A, c7B]).map) ((sortedMonthsOf 0 [c7A, c7B]).getD 0 ""),
             valueAt ((monthFold 0 [c7A, c7B]).map) ((sortedMonthsOf 0 [c7A, c7B]).getD 1 "")⟩
      ∧ (alGet ((monthFold 0 [c7A, c7B]).map)
          ((sortedMonthsOf 0 [c7A, c7B]).getD 0 "")).isSome = true
      ∧ (alGet ((monthFold 0 [c7A, c7B]).map)
          ((sortedMonthsOf 0 [c7A, c7B]).getD 1 "")).isSome = true) :=
  ⟨by decide, c7_mom_adjacent_months 0 [c7A, c7B] 0 (by decide)⟩

/-! ### C8: the range normalizer (corrected: a malformed date string does
NOT fall back to the defaults; it yields an Invalid Date, and the
downstream `fmtYMD(start)` call throws) -/

/-- Claim C8 counterexample fixture: a custom filter with a malformed start. -/
def c8Filters : XeroAnalyticsFilters :=
  { preset := some Preset.custom, start := some "not-a-date" }

/-- Claim C8 counterexample: with a malformed custom start string the
normalizer returns an Invalid start date — not the default
(today - 29 days) the claim requires — and the downstream
`fmtYMD(start)` (source line 743) throws a RangeError instead of never
throwing. -/
theorem c8_malformed_start_counterexample :
    (normalizeRange c8Filters 19800).start = none
    ∧ (normalizeRange c8Filters 19800).start ≠ some (19800 - 29)
    ∧ fmtYMDE (normalizeRange c8Filters 19800).start
        = Except.error "RangeError: Invalid time value" := by
  have hs : (normalizeRange c8Filters 19800).start = none := by decide
  refine ⟨hs, by decide, ?_⟩
  rw [hs]
  rfl

/-- Claim C8 amended: `normalizeRange` itself is total — it always returns a
concrete record with preset and granularity defaulted, and a falsy
(missing or empty) start or end string does fall back to the defaults —
but a nonempty malformed start string under the custom preset produces an
Invalid start date (no fallback to the defaults), and formatting that
start downstream throws a RangeError. -/
theorem c8_normalize_range_malformed (f : XeroAnalyticsFilters) (utcNow : Int) (s : String)
    (h1 : f.preset = some Preset.custom) (h2 : f.start = some s)
    (h3 : s ≠ "") (h4 : parseYMD s = none) :
    (normalizeRange f utcNow).start = none
    ∧ fmtYMDE (normalizeRange f utcNow).start
        = Except.error "RangeError: Invalid time value"
    ∧ (normalizeRange f utcNow).granularity = f.granularity.getD Granularity.day
    ∧ (normalizeRange f utcNow).preset = Preset.custom := by
  have htruthy : strTruthy (some s) = true := by
    simp [strTruthy, h3]
  have hs : (normalizeRange f utcNow).start = none := by
    simp [normalizeRange, h1, h2, htruthy, h4]
  refine ⟨hs, ?_, ?_, ?_⟩
  · rw [hs]
    rfl
  · simp [normalizeRange]
  · simp [normalizeRange, h1]

/-- Claim C8 witness: the amended behaviour at a concrete malformed filter. -/
theorem c8_normalize_range_malformed_witness :
    c8Filters.preset = some Preset.custom
    ∧ c8Filters.start = some "not-a-date"
    ∧ "not-a-date" ≠ ""
    ∧ parseYMD "not-a-date" = none
    ∧ ((normalizeRange c8Filters 19800).start = none
      ∧ fmtYMDE (normalizeRange c8Filters 19800).start
          = Except.error "RangeError: Invalid time value"
      ∧ (normalizeRange c8Filters 19800).granularity
          = c8Filters.granularity.getD Granularity.day
      ∧ (normalizeRange c8Filters 19800).preset = Preset.custom) :=
  ⟨by decide, by decide, by decide, by decide,
    c8_normalize_range_malformed c8Filters 19800 "not-a-date"
      (by decide) (by decide) (by decide) (by decide)⟩

/-! ### C9: authorization retry semantics -/

/-- Claim C9: when the first provider call fails, the wrapper refreshes once
and retries exactly once iff the failure is an authorization error
(status 401 or an "unauthorized" body title), and the retried call's
outcome — success or failure — is final; a non-authorization error is
rethrown immediately with no refresh and no retry. -/
theorem c9_request_with_retry_semantics {α : Type} (fn : Nat → Except ProviderErr α)
    (e : ProviderErr) (h : fn 0 = Except.error e) :
    requestWithRetry fn
      = if unauthorizedErr e then ⟨2, 1, fn 1⟩ else ⟨1, 0, Except.error e⟩ := by
  simp only [requestWithRetry, h]

/-- Claim C9 fixture: a 401 authorization error. -/
def c9AuthErr : ProviderErr := ⟨some ⟨some 401, none, none⟩⟩

/-- Claim C9 fixture: a non-authorization (500) error. -/
def c9OtherErr : ProviderErr := ⟨some ⟨some 500, none, none⟩⟩

/-- Claim C9 fixture: a call that fails with 401 first and 500 on the retry. -/
def c9fn : Nat → Except ProviderErr Unit :=
  fun n => if n = 0 then Except.error c9AuthErr else Except.error c9OtherErr

/-- Claim C9 witness: the retry trace at a concrete failing call. -/
theorem c9_request_with_retry_semantics_witness :
    c9fn 0 = Except.error c9AuthErr
    ∧ requestWithRetry c9fn
        = (if unauthorizedErr c9AuthErr then ⟨2, 1, c9fn 1⟩
           else ⟨1, 0, Except.error c9AuthErr⟩) :=
  ⟨rfl, c9_request_with_retry_semantics c9fn c9AuthErr rfl⟩

/-! ### C10: undated documents are silently dropped before the counted
checks -/

/-- Claim C10: a fetched document with a falsy date field is dropped by the
filter with no counter incremented (before the type and status checks,
whatever its type or status), and consequently
`included + excludedNonSales + excludedStatus ≤ fetched` — the gap
(undated or out-of-range documents) is not separately counted. -/
theorem c10_undated_dropped_uncounted (ip : Bool) (sD eD : Option Int) (st : FilterAcc)
    (inv : InvoiceLite) (docs : List InvoiceLite) (hd : dateTruthy inv = false) :
    filterStep ip sD eD st inv = st
    ∧ (filterDocs ip sD eD docs).invoices.length
        + (filterDocs ip sD eD docs).excludedNonSales
        + (filterDocs ip sD eD docs).excludedStatus ≤ docs.length := by
  constructor
  · simp [filterStep, hd]
  · have := filterMeasure_fold_le ip sD eD docs ⟨[], 0, 0⟩
    simpa [filterDocs, filterMeasure] using this

/-- Claim C10 fixture: a dateless document whose type and status would both
otherwise be counted exclusions. -/
def c10Inv : InvoiceLite :=
  { type := some "FOO", status := some "VOIDED" }

/-- Claim C10 witness: the silent drop and the diagnostics inequality at a
concrete document list. -/
theorem c10_undated_dropped_uncounted_witness :
    dateTruthy c10Inv = false
    ∧ (filterStep false none none ⟨[], 0, 0⟩ c10Inv = FilterAcc.mk [] 0 0
      ∧ (filterDocs false none none [c10Inv]).invoices.length
          + (filterDocs false none none [c10Inv]).excludedNonSales
          + (filterDocs false none none [c10Inv]).excludedStatus ≤ [c10Inv].length) :=
  ⟨by decide,
    c10_undated_dropped_uncounted false none none ⟨[], 0, 0⟩ c10Inv [c10Inv] (by decide)⟩

end ShopDelta
